import Mathlib

/-!
Verification development for the CalDAV calendar sync core of the repository
(`src/app/features/caldav-calendar-sync/caldav-calendar.service.ts`).

The service is embedded shallowly: every method of `CaldavCalendarService`
that the properties below speak about is translated into a pure Lean
function.  Effects (network requests, snackbar notifications, log lines) are
collected into an explicit effect list; thrown errors become an `Except`
result; the mutable client/calendar cache is threaded explicitly.  External
collaborators (the CalDAV server, the clock, `crypto.randomUUID`, the
`Date`/ISO-string formatting backend of `_formatIcalDateTime`) are supplied
through an `Env` record, mirroring the spec's "inbound interfaces".

JavaScript-specific behaviour is modelled explicitly:
* `string | null` fields become `Option String`; JS truthiness of such a
  value (`!!x`, `x ? _ : _`) is `jsTruthyStrOpt`;
* template interpolation of a possibly-`null` string (`` `${x}` ``) is
  `jsStr` (JS renders `null` as the string "null");
* iCal property values (`ical.js` jCal values) are `PropVal`; JS truthiness
  of such a value is `jsTruthy` (`0`, `""` and `NaN` are falsy);
* `parseInt` applied to a jCal value is `parseIntOfVal`; a failed parse is
  `PropVal.nan` (JS `NaN`).
-/

/-- A jCal property value as returned by `ical.js`'s `getFirstPropertyValue`:
a text value, an integer value, a date-time (`ICAL.Time`, identified by its
epoch-milliseconds instant), or JS `NaN`. -/
inductive PropVal where
  | str (s : String)
  | num (n : Int)
  | time (ms : Int)
  | nan
  deriving DecidableEq, Repr

/-- JS truthiness of a jCal value: `0`, the empty string and `NaN` are falsy. -/
def jsTruthy : PropVal → Bool
  | .str s => s ≠ ""
  | .num n => n ≠ 0
  | .time _ => true
  | .nan => false

/-- JS truthiness of a possibly-absent string (`string | null | undefined`). -/
def jsTruthyStrOpt : Option String → Bool
  | none => false
  | some s => s ≠ ""

/-- Template interpolation of a `string | null` value: JS renders `null` as
the literal string "null". -/
def jsStr : Option String → String
  | none => "null"
  | some s => s

/-- Parse the leading decimal digits of a character list (the digit-prefix
fragment of JS `parseInt`). -/
def digitsValue : List Char → Nat → Option Nat
  | [], acc => some acc
  | c :: cs, acc =>
    if c.isDigit then
      match digitsValue cs (acc * 10 + (c.toNat - 48)) with
      | some v => some v
      | none => some (acc * 10 + (c.toNat - 48))
    else some acc

/-- JS `parseInt` on a string, restricted to the shapes that occur here: an
optional sign followed by decimal digits; `none` models `NaN`.  (Whitespace
skipping and radix prefixes of the full JS `parseInt` are not modelled; the
`sequence` jCal property this is applied to is integer-typed.) -/
def jsParseInt (s : String) : Option Int :=
  match s.data with
  | [] => none
  | c :: cs =>
    if c = '-' then
      match cs with
      | [] => none
      | d :: _ => if d.isDigit then (digitsValue cs 0).map (fun n => -(n : Int)) else none
    else if c.isDigit then (digitsValue s.data 0).map (fun n => (n : Int))
    else none

/-- JS `parseInt(v as string)` on a jCal value: a number is stringified and
re-parsed (identity on integers), a string is parsed, `NaN` stays `NaN`.
(`ICAL.Time`'s string form is not modelled; the value is never a time in the
code paths below, which only apply this to the integer-typed `sequence`.) -/
def parseIntOfVal : PropVal → Option Int
  | .num n => some n
  | .str s => jsParseInt s
  | .time _ => none
  | .nan => none

/-! ### iCal component trees (`ical.js` `ICAL.Component`) -/

/-- The property list of one component (`vevent`/`vtodo`): ordered
(name, value) pairs, as in the jCal array representation. -/
abbrev Component := List (String × PropVal)

/-- The parsed `VCALENDAR` tree: its list of subcomponents, each a
(component-name, property-list) pair. -/
structure VCal where
  subcomponents : List (String × Component)
  deriving DecidableEq, Repr

/-- `ICAL.Component#getFirstPropertyValue`: the value of the first property
with the given name, or `none`. -/
def getFirstPropertyValue (c : Component) (name : String) : Option PropVal :=
  match c with
  | [] => none
  | (n, v) :: rest => if n = name then some v else getFirstPropertyValue rest name

/-- `ICAL.Component#updatePropertyWithValue`: sets the value of the first
property with the given name, or appends a new property. -/
def updatePropertyWithValue (c : Component) (name : String) (v : PropVal) : Component :=
  match c with
  | [] => [(name, v)]
  | (n, w) :: rest =>
    if n = name then (name, v) :: rest
    else (n, w) :: updatePropertyWithValue rest name v

/-- `ICAL.Component#getFirstSubcomponent`. -/
def getFirstSubcomponent (t : VCal) (name : String) : Option Component :=
  match t.subcomponents.find? (fun p => p.1 = name) with
  | some p => some p.2
  | none => none

/-- Write back a mutated subcomponent: in the source the subcomponent is
mutated through a reference into the parsed tree, so re-serialising the tree
(`ICAL.stringify(jCal)`) sees the mutation; here the first subcomponent of
the given name is replaced explicitly. -/
def setFirstSubcomponent (t : VCal) (name : String) (c : Component) : VCal :=
  ⟨go t.subcomponents⟩
where
  go : List (String × Component) → List (String × Component)
    | [] => [(name, c)]
    | (n, w) :: rest => if n = name then (name, c) :: rest else (n, w) :: go rest

/-! ### The text escaping of `_escapeIcalText` -/

/-- One global character replacement (`String#replace(/c/g, r)` for a single
character pattern), on the string's character list. -/
def replaceChar (c : Char) (r : List Char) : List Char → List Char
  | [] => []
  | x :: xs => (if x = c then r else [x]) ++ replaceChar c r xs

/-- `_escapeIcalText` on the character list: the four `.replace` passes of
the source in order — backslash, then semicolon, then comma, then newline. -/
def escapeIcalChars (l : List Char) : List Char :=
  replaceChar '\n' ['\\', 'n']
    (replaceChar ',' ['\\', ',']
      (replaceChar ';' ['\\', ';']
        (replaceChar '\\' ['\\', '\\'] l)))

/-- `CaldavCalendarService._escapeIcalText`. -/
def _escapeIcalText (text : String) : String :=
  ⟨escapeIcalChars text.data⟩

/-- Specification-side single-pass escape map: each special character is
substituted once and all other characters (including backslashes introduced
by a substitution) pass through untouched. -/
def escCharSpec (c : Char) : List Char :=
  if c = '\\' then ['\\', '\\']
  else if c = ';' then ['\\', ';']
  else if c = ',' then ['\\', ',']
  else if c = '\n' then ['\\', 'n']
  else [c]

/-! ### Configuration and calendars -/

/-- `CaldavCalendarCfg` (caldav-calendar.model.ts); `string | null` fields
become `Option String`. -/
structure CaldavCalendarCfg where
  isEnabled : Bool
  caldavUrl : Option String
  calendarName : Option String
  username : Option String
  password : Option String
  syncTodos : Bool
  deriving DecidableEq, Repr

/-- `CaldavCalendarService._isValidSettings`: enabled and every credential
string present and non-empty (`!!x && x.length > 0`). -/
def _isValidSettings (cfg : CaldavCalendarCfg) : Bool :=
  cfg.isEnabled
    && jsTruthyStrOpt cfg.caldavUrl
    && jsTruthyStrOpt cfg.calendarName
    && jsTruthyStrOpt cfg.username
    && jsTruthyStrOpt cfg.password

/-- `CaldavCalendarService._getCalendarUriFromUrl`: strip one trailing slash,
then take everything after the last slash (the whole string when there is no
slash, matching `lastIndexOf` returning `-1`). -/
def _getCalendarUriFromUrl (url : String) : String :=
  let url := if url.endsWith "/" then url.dropRight 1 else url
  (url.splitOn "/").getLastD ""

/-- A resolved remote calendar handle (`cdav-library` `Calendar`): display
name (the empty string models an absent/null display name), URL and the
read-only flag. -/
structure Calendar where
  displayname : String
  url : String
  readOnly : Bool
  deriving DecidableEq, Repr

/-- The name a calendar is matched and listed under:
`item.displayname || _getCalendarUriFromUrl(item.url)`. -/
def calName (c : Calendar) : String :=
  if c.displayname ≠ "" then c.displayname else _getCalendarUriFromUrl c.url

/-- A located remote calendar object as returned by `calendarQuery`: its
parsed data and whether the optional `update` / `delete` capability handles
are present. -/
structure RemoteObject where
  comp : VCal
  hasUpdate : Bool
  hasDelete : Bool
  deriving DecidableEq, Repr

/-! ### Effects, errors, environment, state -/

/-- Externally visible effects of one service call, in order: network
requests, snackbar notifications (identified by their translation key) and
log lines. -/
inductive Eff where
  | netConnect
  | netList
  | netQuery (compType : String) (uid : String)
  | netCreate (lines : List String)
  | netUpdate (data : VCal)
  | netDelete
  | snack (key : String)
  | logInfo (msg : String) (uid : String)
  | logWarn (msg : String) (uid : String)
  | logErr (msg : String)
  deriving DecidableEq, Repr

/-- Is the effect a network write (object create / update / delete)? -/
def isNetWrite : Eff → Bool
  | .netCreate _ => true
  | .netUpdate _ => true
  | .netDelete => true
  | _ => false

/-- Is the effect any network access at all? -/
def isNetEff : Eff → Bool
  | .netConnect => true
  | .netList => true
  | .netQuery _ _ => true
  | e => isNetWrite e

/-- The network writes among a list of effects. -/
def netWrites (l : List Eff) : List Eff := l.filter isNetWrite

/-- The error taxonomy of the service (thrown JS errors). -/
inductive CaldavError where
  | notConfigured
  | calendarNotFound (name : String)
  | calendarReadOnly (name : String)
  | networkError
  deriving DecidableEq, Repr

/-- The external world of one call: how the server answers, plus the clock
and randomness inputs (spec §6: clock and UID-generation utility). -/
structure Env where
  /-- `client.connect` succeeds. -/
  connectOk : Bool
  /-- `client.calendarHomes` is non-empty after connecting. -/
  hasCalendarHome : Bool
  /-- `findAllCalendars` succeeds. -/
  listOk : Bool
  /-- the calendars listed by `findAllCalendars`. -/
  calendars : List Calendar
  /-- result of `_findEventByUid` per uid. -/
  findEvents : String → List RemoteObject
  /-- result of `_findTodoByUid` per uid. -/
  findTodos : String → List RemoteObject
  /-- `createVObject` succeeds. -/
  createOk : Bool
  /-- an object's `update()` succeeds. -/
  updateOk : Bool
  /-- an object's `delete()` succeeds. -/
  deleteOk : Bool
  /-- `Date.now()` / the instant of `ICAL.Time.now()`. -/
  nowMs : Int
  /-- `_formatIcalDateTime`: the `Date`/`toISOString`-based timestamp
  formatting backend (its calendar arithmetic is not re-implemented; no
  property below inspects its output). -/
  fmt : Int → String
  /-- `crypto.randomUUID()`. -/
  uuid : String
  /-- the `message` of a connection error, for `testConnection`. -/
  errMsg : String

/-- The per-session calendar resolution cache of one `ClientCache`. -/
abbrev CalMap := List (String × Calendar)

/-- `_clientCache`: connection key ↦ that client's calendar cache. -/
abbrev Cache := List (String × CalMap)

/-- First-match association lookup (JS `Map#get` after `Map#has`). -/
def alookup (l : List (String × α)) (k : String) : Option α :=
  match l with
  | [] => none
  | (n, v) :: rest => if n = k then some v else alookup rest k

/-- Association update (JS `Map#set`): replace the first binding of the key
or append a new one. -/
def aset (l : List (String × α)) (k : String) (v : α) : List (String × α) :=
  match l with
  | [] => [(k, v)]
  | (n, w) :: rest => if n = k then (k, v) :: rest else (n, w) :: aset rest k v

instance {ε α : Type} [DecidableEq ε] [DecidableEq α] : DecidableEq (Except ε α) := fun
  | .ok a, .ok b =>
    if h : a = b then .isTrue (by rw [h]) else .isFalse (by simp [h])
  | .ok _, .error _ => .isFalse (by simp)
  | .error _, .ok _ => .isFalse (by simp)
  | .error e, .error f =>
    if h : e = f then .isTrue (by rw [h]) else .isFalse (by simp [h])

/-- The outcome of one (async) service method call: the returned value or
thrown error, the cache afterwards, and the effects in order. -/
structure Step (α : Type) where
  res : Except CaldavError α
  st : Cache
  effs : List Eff
  deriving DecidableEq, Repr

/-- `CaldavCalendarService._checkSettings` composed into
`CaldavCalendarService._getClient`: validate the configuration (snackbar +
`NotConfigured` on failure), then return the cached client for the
`url|username|password` key or connect freshly (caching on success,
`_handleNetErr` on failure).  The returned value is the connection key and
the session's calendar cache. -/
def _getClient (env : Env) (cfg : CaldavCalendarCfg) (st : Cache) :
    Step (String × CalMap) :=
  if !_isValidSettings cfg then
    { res := .error .notConfigured, st := st, effs := [.snack "ERR_NOT_CONFIGURED"] }
  else
    let clientKey := jsStr cfg.caldavUrl ++ "|" ++ jsStr cfg.username ++ "|" ++ jsStr cfg.password
    match alookup st clientKey with
    | some m => { res := .ok (clientKey, m), st := st, effs := [] }
    | none =>
      if env.connectOk then
        { res := .ok (clientKey, []), st := aset st clientKey [],
          effs := [.netConnect] }
      else
        { res := .error .networkError, st := st,
          effs := [.netConnect, .snack "ERR_NETWORK"] }

/-- `CaldavCalendarService._getCalendar`: get the client, then the cached
calendar for `cfg.calendarName`, else list all calendars and match by
display name (or URL-derived fallback); snackbar + `CALENDAR NOT FOUND`
error when no calendar matches. -/
def _getCalendar (env : Env) (cfg : CaldavCalendarCfg) (st : Cache) : Step Calendar :=
  let g := _getClient env cfg st
  match g.res with
  | .error e => { res := .error e, st := g.st, effs := g.effs }
  | .ok (clientKey, m) =>
    let resource := jsStr cfg.calendarName
    match alookup m resource with
    | some cal => { res := .ok cal, st := g.st, effs := g.effs }
    | none =>
      if env.listOk then
        match env.calendars.find? (fun item => calName item = resource) with
        | some cal =>
          { res := .ok cal, st := aset g.st clientKey (aset m resource cal),
            effs := g.effs ++ [.netList] }
        | none =>
          { res := .error (.calendarNotFound resource), st := g.st,
            effs := g.effs ++ [.netList, .snack "CALENDAR_NOT_FOUND"] }
      else
        { res := .error .networkError, st := g.st,
          effs := g.effs ++ [.netList, .snack "ERR_NETWORK"] }

/-! ### Payloads -/

/-- `CalendarEventData` (caldav-calendar.model.ts); `end` is written
`endTs` because `end` is reserved in Lean. -/
structure CalendarEventData where
  uid : String
  summary : String
  start : Int
  endTs : Int
  description : Option String
  deriving DecidableEq, Repr

/-- `Partial<CalendarEventData>` as passed to `updateEvent$`: each field
optionally provided (`none` is TS `undefined`). -/
structure EventUpdate where
  summary : Option String
  start : Option Int
  endTs : Option Int
  description : Option String
  deriving DecidableEq, Repr

/-- `CalendarTodoData` (caldav-calendar.model.ts); the status union type is
kept as a string. -/
structure CalendarTodoData where
  uid : String
  summary : String
  description : Option String
  priority : Option Int
  dueDate : Option Int
  percentComplete : Option Int
  status : Option String
  deriving DecidableEq, Repr

/-- `Partial<CalendarTodoData>` as passed to `updateTodo$`. -/
structure TodoUpdate where
  summary : Option String
  description : Option String
  status : Option String
  percentComplete : Option Int
  priority : Option Int
  dueDate : Option Int
  deriving DecidableEq, Repr

/-! ### Update field application (`_updateEvent` / `_updateTodo` bodies) -/

/-- The field-application block of `_updateEvent` (lines 355–380): summary
is compared against the current value and applied only when different
(strict `!==` against the jCal value); dtstart, dtend and description are
applied unconditionally whenever provided.  Returns the mutated component
and the `changeObserved` flag. -/
def applyEventFields (d : EventUpdate) (v : Component) : Component × Bool :=
  let changeObserved := false
  let (v, changeObserved) :=
    match d.summary with
    | none => (v, changeObserved)
    | some s =>
      let oldSummary := getFirstPropertyValue v "summary"
      if oldSummary ≠ some (.str s) then
        (updatePropertyWithValue v "summary" (.str s), true)
      else (v, changeObserved)
  let (v, changeObserved) :=
    match d.start with
    | none => (v, changeObserved)
    | some ms => (updatePropertyWithValue v "dtstart" (.time ms), true)
  let (v, changeObserved) :=
    match d.endTs with
    | none => (v, changeObserved)
    | some ms => (updatePropertyWithValue v "dtend" (.time ms), true)
  let (v, changeObserved) :=
    match d.description with
    | none => (v, changeObserved)
    | some s => (updatePropertyWithValue v "description" (.str s), true)
  (v, changeObserved)

/-- The field-application block of `_updateTodo` (lines 526–564): summary is
change-checked; description, status, percent-complete, priority and due are
applied unconditionally whenever provided; setting status to COMPLETED also
stamps a `completed` timestamp. -/
def applyTodoFields (now : PropVal) (d : TodoUpdate) (v : Component) : Component × Bool :=
  let changeObserved := false
  let (v, changeObserved) :=
    match d.summary with
    | none => (v, changeObserved)
    | some s =>
      let oldSummary := getFirstPropertyValue v "summary"
      if oldSummary ≠ some (.str s) then
        (updatePropertyWithValue v "summary" (.str s), true)
      else (v, changeObserved)
  let (v, changeObserved) :=
    match d.description with
    | none => (v, changeObserved)
    | some s => (updatePropertyWithValue v "description" (.str s), true)
  let (v, changeObserved) :=
    match d.status with
    | none => (v, changeObserved)
    | some s =>
      let v := updatePropertyWithValue v "status" (.str s)
      let v := if s = "COMPLETED" then updatePropertyWithValue v "completed" now else v
      (v, true)
  let (v, changeObserved) :=
    match d.percentComplete with
    | none => (v, changeObserved)
    | some n => (updatePropertyWithValue v "percent-complete" (.num n), true)
  let (v, changeObserved) :=
    match d.priority with
    | none => (v, changeObserved)
    | some n => (updatePropertyWithValue v "priority" (.num n), true)
  let (v, changeObserved) :=
    match d.dueDate with
    | none => (v, changeObserved)
    | some ms => (updatePropertyWithValue v "due" (.time ms), true)
  (v, changeObserved)

/-- The write-back block shared by `_updateEvent` and `_updateTodo` (lines
386–391 / 570–575): refresh `last-modified` and `dtstamp` to now, then set
`sequence` to `sequence ? parseInt(sequence) + 1 : 1`. -/
def bumpForWrite (now : PropVal) (v : Component) : Component :=
  let v := updatePropertyWithValue v "last-modified" now
  let v := updatePropertyWithValue v "dtstamp" now
  let sequence := getFirstPropertyValue v "sequence"
  let sequenceInt : PropVal :=
    match sequence with
    | some s =>
      if jsTruthy s then
        match parseIntOfVal s with
        | some n => .num (n + 1)
        | none => .nan
      else .num 1
    | none => .num 1
  updatePropertyWithValue v "sequence" sequenceInt

/-! ### The sync verbs -/

/-- `CaldavCalendarService._updateEvent`. -/
def _updateEvent (env : Env) (cfg : CaldavCalendarCfg) (uid : String)
    (eventData : EventUpdate) (st : Cache) : Step Unit :=
  let g := _getCalendar env cfg st
  match g.res with
  | .error e => { res := .error e, st := g.st, effs := g.effs }
  | .ok calendar =>
    if calendar.readOnly then
      { res := .error (.calendarReadOnly (jsStr cfg.calendarName)), st := g.st,
        effs := g.effs ++ [.snack "CALENDAR_READ_ONLY"] }
    else
      let events := env.findEvents uid
      let effs := g.effs ++ [.netQuery "VEVENT" uid]
      match events with
      | [] =>
        { res := .ok (), st := g.st,
          effs := effs ++ [.logWarn "Event not found for update" uid] }
      | event :: _ =>
        match getFirstSubcomponent event.comp "vevent" with
        | none =>
          { res := .ok (), st := g.st, effs := effs ++ [.logErr "No vevent found"] }
        | some vevent =>
          let now : PropVal := .time env.nowMs
          let (vevent, changeObserved) := applyEventFields eventData vevent
          if !changeObserved then
            { res := .ok (), st := g.st, effs := effs }
          else
            let vevent := bumpForWrite now vevent
            let newData := setFirstSubcomponent event.comp "vevent" vevent
            if event.hasUpdate then
              if env.updateOk then
                { res := .ok (), st := g.st,
                  effs := effs ++ [.netUpdate newData, .logInfo "Updated event" uid] }
              else
                { res := .error .networkError, st := g.st,
                  effs := effs ++ [.netUpdate newData, .snack "ERR_NETWORK"] }
            else
              { res := .ok (), st := g.st,
                effs := effs ++ [.logInfo "Updated event" uid] }

/-- `CaldavCalendarService._updateTodo`. -/
def _updateTodo (env : Env) (cfg : CaldavCalendarCfg) (uid : String)
    (todoData : TodoUpdate) (st : Cache) : Step Unit :=
  let g := _getCalendar env cfg st
  match g.res with
  | .error e => { res := .error e, st := g.st, effs := g.effs }
  | .ok calendar =>
    if calendar.readOnly then
      { res := .error (.calendarReadOnly (jsStr cfg.calendarName)), st := g.st,
        effs := g.effs ++ [.snack "CALENDAR_READ_ONLY"] }
    else
      let todos := env.findTodos uid
      let effs := g.effs ++ [.netQuery "VTODO" uid]
      match todos with
      | [] =>
        { res := .ok (), st := g.st,
          effs := effs ++ [.logWarn "VTODO not found for update" uid] }
      | todo :: _ =>
        match getFirstSubcomponent todo.comp "vtodo" with
        | none =>
          { res := .ok (), st := g.st, effs := effs ++ [.logErr "No vtodo found"] }
        | some vtodo =>
          let now : PropVal := .time env.nowMs
          let (vtodo, changeObserved) := applyTodoFields now todoData vtodo
          if !changeObserved then
            { res := .ok (), st := g.st, effs := effs }
          else
            let vtodo := bumpForWrite now vtodo
            let newData := setFirstSubcomponent todo.comp "vtodo" vtodo
            if todo.hasUpdate then
              if env.updateOk then
                { res := .ok (), st := g.st,
                  effs := effs ++ [.netUpdate newData, .logInfo "Updated VTODO" uid] }
              else
                { res := .error .networkError, st := g.st,
                  effs := effs ++ [.netUpdate newData, .snack "ERR_NETWORK"] }
            else
              { res := .ok (), st := g.st,
                effs := effs ++ [.logInfo "Updated VTODO" uid] }

/-- `CaldavCalendarService.completeTodo$`: sugar for `_updateTodo` with
`{status: COMPLETED, percentComplete: 100}`. -/
def completeTodo (env : Env) (cfg : CaldavCalendarCfg) (uid : String) (st : Cache) :
    Step Unit :=
  _updateTodo env cfg uid
    { summary := none, description := none, status := some "COMPLETED",
      percentComplete := some 100, priority := none, dueDate := none } st

/-- `CaldavCalendarService._deleteEvent`: no read-only check; zero matches is
a warned no-op; the delete capability is invoked only when present. -/
def _deleteEvent (env : Env) (cfg : CaldavCalendarCfg) (uid : String) (st : Cache) :
    Step Unit :=
  let g := _getCalendar env cfg st
  match g.res with
  | .error e => { res := .error e, st := g.st, effs := g.effs }
  | .ok _calendar =>
    let events := env.findEvents uid
    let effs := g.effs ++ [.netQuery "VEVENT" uid]
    match events with
    | [] =>
      { res := .ok (), st := g.st,
        effs := effs ++ [.logWarn "Event not found for deletion" uid] }
    | event :: _ =>
      if event.hasDelete then
        if env.deleteOk then
          { res := .ok (), st := g.st,
            effs := effs ++ [.netDelete, .logInfo "Deleted event" uid] }
        else
          { res := .error .networkError, st := g.st,
            effs := effs ++ [.netDelete, .snack "ERR_NETWORK"] }
      else
        { res := .ok (), st := g.st, effs := effs ++ [.logInfo "Deleted event" uid] }

/-- `CaldavCalendarService._deleteTodo`. -/
def _deleteTodo (env : Env) (cfg : CaldavCalendarCfg) (uid : String) (st : Cache) :
    Step Unit :=
  let g := _getCalendar env cfg st
  match g.res with
  | .error e => { res := .error e, st := g.st, effs := g.effs }
  | .ok _calendar =>
    let todos := env.findTodos uid
    let effs := g.effs ++ [.netQuery "VTODO" uid]
    match todos with
    | [] =>
      { res := .ok (), st := g.st,
        effs := effs ++ [.logWarn "VTODO not found for deletion" uid] }
    | todo :: _ =>
      if todo.hasDelete then
        if env.deleteOk then
          { res := .ok (), st := g.st,
            effs := effs ++ [.netDelete, .logInfo "Deleted VTODO" uid] }
        else
          { res := .error .networkError, st := g.st,
            effs := effs ++ [.netDelete, .snack "ERR_NETWORK"] }
      else
        { res := .ok (), st := g.st, effs := effs ++ [.logInfo "Deleted VTODO" uid] }

/-- The multi-line ICS template of `_createEvent` (lines 294–306), one list
element per line of the template literal; when the description is falsy the
interpolated expression contributes the empty string and the template's
surrounding line breaks remain, leaving an empty line. -/
def eventIcalLines (uid now dtstart dtend : String) (summary : String)
    (description : Option String) : List String :=
  [ "BEGIN:VCALENDAR",
    "VERSION:2.0",
    "PRODID:-//Super Productivity//CalDAV Calendar Sync//EN",
    "BEGIN:VEVENT",
    "UID:" ++ uid,
    "DTSTAMP:" ++ now,
    "DTSTART:" ++ dtstart,
    "DTEND:" ++ dtend,
    "SUMMARY:" ++ _escapeIcalText summary,
    (if jsTruthyStrOpt description then
      "DESCRIPTION:" ++ _escapeIcalText (jsStr description)
    else ""),
    "SEQUENCE:0",
    "END:VEVENT",
    "END:VCALENDAR" ]

/-- `CaldavCalendarService._createEvent`: resolve the calendar, reject a
read-only calendar, take the given uid or generate `"sp-" + randomUUID()`,
build the ICS text and create the object on the server, returning the uid. -/
def _createEvent (env : Env) (cfg : CaldavCalendarCfg)
    (eventData : CalendarEventData) (st : Cache) : Step String :=
  let g := _getCalendar env cfg st
  match g.res with
  | .error e => { res := .error e, st := g.st, effs := g.effs }
  | .ok calendar =>
    if calendar.readOnly then
      { res := .error (.calendarReadOnly (jsStr cfg.calendarName)), st := g.st,
        effs := g.effs ++ [.snack "CALENDAR_READ_ONLY"] }
    else
      let uid := if eventData.uid ≠ "" then eventData.uid else "sp-" ++ env.uuid
      let now := env.fmt env.nowMs
      let dtstart := env.fmt eventData.start
      let dtend := env.fmt eventData.endTs
      let icalData :=
        eventIcalLines uid now dtstart dtend eventData.summary eventData.description
      if env.createOk then
        { res := .ok uid, st := g.st,
          effs := g.effs ++ [.netCreate icalData, .logInfo "Created event" uid] }
      else
        { res := .error .networkError, st := g.st,
          effs := g.effs ++ [.netCreate icalData, .snack "ERR_NETWORK"] }

/-- The ICS text of `_createTodo` (lines 447–477): a base template followed
by conditional `icalData += ...` line appends for description, priority, due
date and percent-complete, closed by the SEQUENCE/END lines. -/
def todoIcalLines (env : Env) (uid now : String) (todoData : CalendarTodoData) :
    List String :=
  [ "BEGIN:VCALENDAR",
    "VERSION:2.0",
    "PRODID:-//Super Productivity//CalDAV Calendar Sync//EN",
    "BEGIN:VTODO",
    "UID:" ++ uid,
    "DTSTAMP:" ++ now,
    "CREATED:" ++ now,
    "SUMMARY:" ++ _escapeIcalText todoData.summary,
    "STATUS:" ++ (if jsTruthyStrOpt todoData.status then jsStr todoData.status
      else "NEEDS-ACTION") ]
  ++ (if jsTruthyStrOpt todoData.description then
        ["DESCRIPTION:" ++ _escapeIcalText (jsStr todoData.description)]
      else [])
  ++ (match todoData.priority with
      | some p => ["PRIORITY:" ++ toString p]
      | none => [])
  ++ (match todoData.dueDate with
      | some ms => ["DUE:" ++ env.fmt ms]
      | none => [])
  ++ (match todoData.percentComplete with
      | some pc => ["PERCENT-COMPLETE:" ++ toString pc]
      | none => [])
  ++ [ "SEQUENCE:0", "END:VTODO", "END:VCALENDAR" ]

/-- `CaldavCalendarService._createTodo`. -/
def _createTodo (env : Env) (cfg : CaldavCalendarCfg)
    (todoData : CalendarTodoData) (st : Cache) : Step String :=
  let g := _getCalendar env cfg st
  match g.res with
  | .error e => { res := .error e, st := g.st, effs := g.effs }
  | .ok calendar =>
    if calendar.readOnly then
      { res := .error (.calendarReadOnly (jsStr cfg.calendarName)), st := g.st,
        effs := g.effs ++ [.snack "CALENDAR_READ_ONLY"] }
    else
      let uid := if todoData.uid ≠ "" then todoData.uid else "sp-" ++ env.uuid
      let now := env.fmt env.nowMs
      let icalData := todoIcalLines env uid now todoData
      if env.createOk then
        { res := .ok uid, st := g.st,
          effs := g.effs ++ [.netCreate icalData, .logInfo "Created VTODO" uid] }
      else
        { res := .error .networkError, st := g.st,
          effs := g.effs ++ [.netCreate icalData, .snack "ERR_NETWORK"] }

/-! ### testConnection -/

/-- The result record of `testConnection`. -/
structure TestConnectionResult where
  success : Bool
  calendars : Option (List String)
  error : Option String
  deriving DecidableEq, Repr

/-- `CaldavCalendarService.testConnection`: clear the whole client cache,
connect freshly, list the calendars of the first calendar home and report
their display names; when a calendar name is configured (truthy) and absent
from the listing, report success with a non-fatal error string; any thrown
connection/listing error is caught and reported as `success: false`.
Returns the result together with the cache left behind. -/
def testConnection (env : Env) (cfg : CaldavCalendarCfg) (_st : Cache) :
    TestConnectionResult × Cache :=
  let cleared : Cache := []
  if !env.connectOk then
    ({ success := false, calendars := none, error := some env.errMsg }, cleared)
  else if !env.hasCalendarHome then
    ({ success := false, calendars := none, error := some "No calendar home found" },
      cleared)
  else if !env.listOk then
    ({ success := false, calendars := none, error := some env.errMsg }, cleared)
  else
    let calendarNames := env.calendars.map calName
    let targetCalendar := cfg.calendarName
    let calendarFound :=
      if jsTruthyStrOpt targetCalendar then calendarNames.contains (jsStr targetCalendar)
      else true
    ({ success := true,
       calendars := some calendarNames,
       error :=
         if calendarFound then none
         else some ("Calendar \x22" ++ jsStr targetCalendar
           ++ "\x22 not found. Available: " ++ String.intercalate ", " calendarNames) },
      cleared)

/-! ### Concrete fixtures (used by the witness theorems) -/

/-- A writable calendar named "Work". -/
def exCal : Calendar :=
  { displayname := "Work", url := "https://example.org/dav/calendars/alice/work/",
    readOnly := false }

/-- The same calendar flagged read-only. -/
def exCalReadOnly : Calendar := { exCal with readOnly := true }

/-- Listed calendars for the `testConnection` scenario of the spec. -/
def exCalHome : Calendar :=
  { displayname := "Home", url := "https://example.org/dav/calendars/alice/home/",
    readOnly := false }

def exCalPersonal : Calendar :=
  { displayname := "Personal", url := "https://example.org/dav/calendars/alice/personal/",
    readOnly := false }

/-- A complete, enabled configuration targeting "Work". -/
def exCfg : CaldavCalendarCfg :=
  { isEnabled := true, caldavUrl := some "https://example.org/dav",
    calendarName := some "Work", username := some "alice", password := some "pw",
    syncTodos := true }

/-- A disabled configuration (invalid per `_isValidSettings`). -/
def exCfgDisabled : CaldavCalendarCfg := { exCfg with isEnabled := false }

/-- The connection key of `exCfg` and the cache after resolving "Work". -/
def exKey : String := "https://example.org/dav|alice|pw"

def exSt1 : Cache := [(exKey, [("Work", exCal)])]

def exSt1ReadOnly : Cache := [(exKey, [("Work", exCalReadOnly)])]

/-- A remote VEVENT with SEQUENCE 2. -/
def exVevent : Component :=
  [("uid", .str "u1"), ("summary", .str "Old"), ("dtstart", .time 0),
   ("dtend", .time 3600000), ("sequence", .num 2)]

/-- A remote VEVENT carrying no SEQUENCE property. -/
def exVeventNoSeq : Component :=
  [("uid", .str "u1"), ("summary", .str "Old"), ("dtstart", .time 0)]

/-- A remote VTODO with SEQUENCE 0 (the JS-falsy present value). -/
def exVtodo : Component :=
  [("uid", .str "t1"), ("summary", .str "Task"), ("status", .str "NEEDS-ACTION"),
   ("sequence", .num 0)]

/-- A remote VTODO carrying no SEQUENCE property. -/
def exVtodoNoSeq : Component :=
  [("uid", .str "t1"), ("summary", .str "Task")]

def exObjE : RemoteObject :=
  { comp := ⟨[("vevent", exVevent)]⟩, hasUpdate := true, hasDelete := true }

def exObjENoSeq : RemoteObject :=
  { comp := ⟨[("vevent", exVeventNoSeq)]⟩, hasUpdate := true, hasDelete := true }

def exObjENoCap : RemoteObject :=
  { comp := ⟨[("vevent", exVevent)]⟩, hasUpdate := false, hasDelete := false }

def exObjT : RemoteObject :=
  { comp := ⟨[("vtodo", exVtodo)]⟩, hasUpdate := true, hasDelete := true }

def exObjTNoSeq : RemoteObject :=
  { comp := ⟨[("vtodo", exVtodoNoSeq)]⟩, hasUpdate := true, hasDelete := true }

def exObjTNoCap : RemoteObject :=
  { comp := ⟨[("vtodo", exVtodo)]⟩, hasUpdate := false, hasDelete := false }

/-- An environment where every server interaction succeeds. -/
def mkEnv (cals : List Calendar) (evs tds : List RemoteObject) : Env :=
  { connectOk := true, hasCalendarHome := true, listOk := true, calendars := cals,
    findEvents := fun _ => evs, findTodos := fun _ => tds,
    createOk := true, updateOk := true, deleteOk := true, nowMs := 1700000000000,
    fmt := fun _ => "20231114T221320Z",
    uuid := "00000000-0000-4000-8000-000000000000",
    errMsg := "connection refused" }

def exEnv : Env := mkEnv [exCal] [exObjE] [exObjT]

def exEnvNoSeq : Env := mkEnv [exCal] [exObjENoSeq] [exObjTNoSeq]

def exEnvReadOnly : Env := mkEnv [exCalReadOnly] [exObjE] [exObjT]

def exEnvEmpty : Env := mkEnv [exCal] [] []

def exEnvNoCap : Env := mkEnv [exCal] [exObjENoCap] [exObjTNoCap]

def exEnvListing : Env := mkEnv [exCalHome, exCalPersonal] [] []

/-- A failing-connection environment. -/
def exEnvDown : Env := { mkEnv [] [] [] with connectOk := false }

/-- Payload changing only the summary (a real change against `exVevent`). -/
def exUpdSummary : EventUpdate :=
  { summary := some "New", start := none, endTs := none, description := none }

/-- Payload providing only `start`, with the value the object already has. -/
def exUpdSameStart : EventUpdate :=
  { summary := none, start := some 0, endTs := none, description := none }

/-- Payload providing only a summary equal to the current one. -/
def exUpdSameSummary : EventUpdate :=
  { summary := some "Old", start := none, endTs := none, description := none }

/-- Todo payload changing the summary. -/
def exTodoUpdSummary : TodoUpdate :=
  { summary := some "NewTask", description := none, status := none,
    percentComplete := none, priority := none, dueDate := none }

/-- Todo payload providing only a summary equal to the current one. -/
def exTodoUpdSameSummary : TodoUpdate :=
  { summary := some "Task", description := none, status := none,
    percentComplete := none, priority := none, dueDate := none }

/-- A create-event record with a caller-given uid. -/
def exEventData : CalendarEventData :=
  { uid := "sp-task-42", summary := "Write report", start := 1700000000000,
    endTs := 1700003600000, description := none }

/-- A create-event record without a uid. -/
def exEventDataNoUid : CalendarEventData := { exEventData with uid := "" }

/-- A create-todo record. -/
def exTodoData : CalendarTodoData :=
  { uid := "sp-task-42", summary := "Write report", description := none,
    priority := none, dueDate := none, percentComplete := none, status := none }

/-! ### Helper lemmas -/

theorem getFirst_update_self (c : Component) (k : String) (v : PropVal) :
    getFirstPropertyValue (updatePropertyWithValue c k v) k = some v := by
  induction c with
  | nil => simp [updatePropertyWithValue, getFirstPropertyValue]
  | cons p rest ih =>
    obtain ⟨n, w⟩ := p
    by_cases h : n = k
    · simp [updatePropertyWithValue, getFirstPropertyValue, h]
    · simp [updatePropertyWithValue, getFirstPropertyValue, h, ih]

theorem getFirst_update_ne (c : Component) (k k' : String) (v : PropVal)
    (h : k' ≠ k) :
    getFirstPropertyValue (updatePropertyWithValue c k v) k' =
      getFirstPropertyValue c k' := by
  induction c with
  | nil => simp [updatePropertyWithValue, getFirstPropertyValue, Ne.symm h]
  | cons p rest ih =>
    obtain ⟨n, w⟩ := p
    by_cases hn : n = k
    · subst hn
      simp [updatePropertyWithValue, getFirstPropertyValue, Ne.symm h]
    · by_cases hk : n = k'
      · subst hk
        simp [updatePropertyWithValue, getFirstPropertyValue, hn, h]
      · simp [updatePropertyWithValue, getFirstPropertyValue, hn, hk, ih]

theorem getFirstSubcomponent_set (t : VCal) (k : String) (c : Component) :
    getFirstSubcomponent (setFirstSubcomponent t k c) k = some c := by
  obtain ⟨l⟩ := t
  simp only [setFirstSubcomponent]
  induction l with
  | nil => simp [setFirstSubcomponent.go, getFirstSubcomponent]
  | cons p rest ih =>
    obtain ⟨n, w⟩ := p
    by_cases h : n = k
    · simp [setFirstSubcomponent.go, getFirstSubcomponent, h]
    · simpa [setFirstSubcomponent.go, getFirstSubcomponent, h] using ih

theorem applyEventFields_untouched (d : EventUpdate) (v : Component) (k : String)
    (h1 : k ≠ "summary") (h2 : k ≠ "dtstart") (h3 : k ≠ "dtend")
    (h4 : k ≠ "description") :
    getFirstPropertyValue (applyEventFields d v).1 k = getFirstPropertyValue v k := by
  unfold applyEventFields
  rcases d.summary with _ | s <;> rcases d.start with _ | a <;>
    rcases d.endTs with _ | b <;> rcases d.description with _ | ds <;>
    simp only [] <;>
    first
      | (split_ifs <;> simp [getFirst_update_ne, h1, h2, h3, h4])
      | simp [getFirst_update_ne, h1, h2, h3, h4]

theorem applyTodoFields_untouched (now : PropVal) (d : TodoUpdate) (v : Component)
    (k : String) (h1 : k ≠ "summary") (h2 : k ≠ "description") (h3 : k ≠ "status")
    (h4 : k ≠ "completed") (h5 : k ≠ "percent-complete") (h6 : k ≠ "priority")
    (h7 : k ≠ "due") :
    getFirstPropertyValue (applyTodoFields now d v).1 k = getFirstPropertyValue v k := by
  unfold applyTodoFields
  rcases d.summary with _ | s <;> rcases d.description with _ | ds <;>
    rcases d.status with _ | stt <;> rcases d.percentComplete with _ | pc <;>
    rcases d.priority with _ | pr <;> rcases d.dueDate with _ | du <;>
    simp only [] <;>
    first
      | (split_ifs <;> simp [getFirst_update_ne, h1, h2, h3, h4, h5, h6, h7])
      | simp [getFirst_update_ne, h1, h2, h3, h4, h5, h6, h7]

theorem bump_sequence_of_num (now : PropVal) (v : Component) (n : Int)
    (h : getFirstPropertyValue v "sequence" = some (.num n)) :
    getFirstPropertyValue (bumpForWrite now v) "sequence" = some (.num (n + 1)) := by
  have hseq : getFirstPropertyValue
      (updatePropertyWithValue (updatePropertyWithValue v "last-modified" now)
        "dtstamp" now) "sequence" = some (.num n) := by
    rw [getFirst_update_ne _ _ _ _ (by decide), getFirst_update_ne _ _ _ _ (by decide), h]
  by_cases hn : n = 0
  · subst hn
    simp only [bumpForWrite, hseq]
    simp [jsTruthy, getFirst_update_self]
  · simp only [bumpForWrite, hseq]
    simp [jsTruthy, hn, parseIntOfVal, getFirst_update_self]

theorem bump_sequence_of_absent (now : PropVal) (v : Component)
    (h : getFirstPropertyValue v "sequence" = none) :
    getFirstPropertyValue (bumpForWrite now v) "sequence" = some (.num 1) := by
  have hseq : getFirstPropertyValue
      (updatePropertyWithValue (updatePropertyWithValue v "last-modified" now)
        "dtstamp" now) "sequence" = none := by
    rw [getFirst_update_ne _ _ _ _ (by decide), getFirst_update_ne _ _ _ _ (by decide), h]
  simp only [bumpForWrite, hseq]
  simp [getFirst_update_self]

theorem bump_lastModified (now : PropVal) (v : Component) :
    getFirstPropertyValue (bumpForWrite now v) "last-modified" = some now := by
  simp only [bumpForWrite]
  rw [getFirst_update_ne _ _ _ _ (by decide), getFirst_update_ne _ _ _ _ (by decide),
    getFirst_update_self]

theorem bump_dtstamp (now : PropVal) (v : Component) :
    getFirstPropertyValue (bumpForWrite now v) "dtstamp" = some now := by
  simp only [bumpForWrite]
  rw [getFirst_update_ne _ _ _ _ (by decide), getFirst_update_self]

theorem netWrites_append (a b : List Eff) :
    netWrites (a ++ b) = netWrites a ++ netWrites b := by
  simp [netWrites, List.filter_append]

theorem getClient_netWrites (env : Env) (cfg : CaldavCalendarCfg) (st : Cache) :
    netWrites (_getClient env cfg st).effs = [] := by
  unfold _getClient
  split
  · rfl
  · dsimp only
    split
    · rfl
    · split <;> rfl

theorem getCalendar_netWrites (env : Env) (cfg : CaldavCalendarCfg) (st : Cache) :
    netWrites (_getCalendar env cfg st).effs = [] := by
  have hc := getClient_netWrites env cfg st
  rcases hgc : _getClient env cfg st with ⟨res, st2, effs2⟩
  rw [hgc] at hc
  simp only [_getCalendar, hgc]
  simp only [Step.effs] at hc
  rcases res with e | ⟨key, m⟩
  · simpa using hc
  · dsimp only
    rcases halk : alookup m (jsStr cfg.calendarName) with _ | cal
    · dsimp only
      split
      · split <;> (rw [netWrites_append, hc]; rfl)
      · rw [netWrites_append, hc]
        rfl
    · simpa using hc

/-! ### Claims -/

/-- C1: for every update of an event or todo that results in a write (at
least one field changed), the written-back component's SEQUENCE equals the
pre-update SEQUENCE plus exactly 1 when a SEQUENCE property is present
(including the JS-falsy value 0), and equals 1 when the property is absent;
LAST-MODIFIED and DTSTAMP are refreshed to the current time in the same
write.  Stated for `_updateEvent` (present and absent SEQUENCE) and
`_updateTodo` (present and absent SEQUENCE). -/
theorem claim_C1_sequence_bump_and_stamp_refresh :
    (∀ (env : Env) (cfg : CaldavCalendarCfg) (uid : String) (d : EventUpdate)
      (st : Cache) (cal : Calendar) (st1 : Cache) (effs1 : List Eff)
      (evt : RemoteObject) (rest : List RemoteObject) (v : Component) (n : Int),
      _getCalendar env cfg st = ⟨.ok cal, st1, effs1⟩ →
      cal.readOnly = false →
      env.findEvents uid = evt :: rest →
      getFirstSubcomponent evt.comp "vevent" = some v →
      (applyEventFields d v).2 = true →
      evt.hasUpdate = true →
      env.updateOk = true →
      getFirstPropertyValue v "sequence" = some (.num n) →
      ∃ w vw,
        _updateEvent env cfg uid d st =
          ⟨.ok (), st1, effs1 ++ [.netQuery "VEVENT" uid, .netUpdate w,
            .logInfo "Updated event" uid]⟩
        ∧ getFirstSubcomponent w "vevent" = some vw
        ∧ getFirstPropertyValue vw "sequence" = some (.num (n + 1))
        ∧ getFirstPropertyValue vw "last-modified" = some (.time env.nowMs)
        ∧ getFirstPropertyValue vw "dtstamp" = some (.time env.nowMs))
  ∧ (∀ (env : Env) (cfg : CaldavCalendarCfg) (uid : String) (d : EventUpdate)
      (st : Cache) (cal : Calendar) (st1 : Cache) (effs1 : List Eff)
      (evt : RemoteObject) (rest : List RemoteObject) (v : Component),
      _getCalendar env cfg st = ⟨.ok cal, st1, effs1⟩ →
      cal.readOnly = false →
      env.findEvents uid = evt :: rest →
      getFirstSubcomponent evt.comp "vevent" = some v →
      (applyEventFields d v).2 = true →
      evt.hasUpdate = true →
      env.updateOk = true →
      getFirstPropertyValue v "sequence" = none →
      ∃ w vw,
        _updateEvent env cfg uid d st =
          ⟨.ok (), st1, effs1 ++ [.netQuery "VEVENT" uid, .netUpdate w,
            .logInfo "Updated event" uid]⟩
        ∧ getFirstSubcomponent w "vevent" = some vw
        ∧ getFirstPropertyValue vw "sequence" = some (.num 1)
        ∧ getFirstPropertyValue vw "last-modified" = some (.time env.nowMs)
        ∧ getFirstPropertyValue vw "dtstamp" = some (.time env.nowMs))
  ∧ (∀ (env : Env) (cfg : CaldavCalendarCfg) (uid : String) (d : TodoUpdate)
      (st : Cache) (cal : Calendar) (st1 : Cache) (effs1 : List Eff)
      (td : RemoteObject) (rest : List RemoteObject) (v : Component) (n : Int),
      _getCalendar env cfg st = ⟨.ok cal, st1, effs1⟩ →
      cal.readOnly = false →
      env.findTodos uid = td :: rest →
      getFirstSubcomponent td.comp "vtodo" = some v →
      (applyTodoFields (.time env.nowMs) d v).2 = true →
      td.hasUpdate = true →
      env.updateOk = true →
      getFirstPropertyValue v "sequence" = some (.num n) →
      ∃ w vw,
        _updateTodo env cfg uid d st =
          ⟨.ok (), st1, effs1 ++ [.netQuery "VTODO" uid, .netUpdate w,
            .logInfo "Updated VTODO" uid]⟩
        ∧ getFirstSubcomponent w "vtodo" = some vw
        ∧ getFirstPropertyValue vw "sequence" = some (.num (n + 1))
        ∧ getFirstPropertyValue vw "last-modified" = some (.time env.nowMs)
        ∧ getFirstPropertyValue vw "dtstamp" = some (.time env.nowMs))
  ∧ (∀ (env : Env) (cfg : CaldavCalendarCfg) (uid : String) (d : TodoUpdate)
      (st : Cache) (cal : Calendar) (st1 : Cache) (effs1 : List Eff)
      (td : RemoteObject) (rest : List RemoteObject) (v : Component),
      _getCalendar env cfg st = ⟨.ok cal, st1, effs1⟩ →
      cal.readOnly = false →
      env.findTodos uid = td :: rest →
      getFirstSubcomponent td.comp "vtodo" = some v →
      (applyTodoFields (.time env.nowMs) d v).2 = true →
      td.hasUpdate = true →
      env.updateOk = true →
      getFirstPropertyValue v "sequence" = none →
      ∃ w vw,
        _updateTodo env cfg uid d st =
          ⟨.ok (), st1, effs1 ++ [.netQuery "VTODO" uid, .netUpdate w,
            .logInfo "Updated VTODO" uid]⟩
        ∧ getFirstSubcomponent w "vtodo" = some vw
        ∧ getFirstPropertyValue vw "sequence" = some (.num 1)
        ∧ getFirstPropertyValue vw "last-modified" = some (.time env.nowMs)
        ∧ getFirstPropertyValue vw "dtstamp" = some (.time env.nowMs)) := by
  refine ⟨?_, ?_, ?_, ?_⟩
  · intro env cfg uid d st cal st1 effs1 evt rest v n h1 h2 h3 h4 h5 h6 h7 h8
    rcases hax : applyEventFields d v with ⟨v1, ch⟩
    rw [hax] at h5
    subst h5
    refine ⟨setFirstSubcomponent evt.comp "vevent" (bumpForWrite (.time env.nowMs) v1),
      bumpForWrite (.time env.nowMs) v1, ?_, getFirstSubcomponent_set _ _ _, ?_,
      bump_lastModified _ _, bump_dtstamp _ _⟩
    · simp [_updateEvent, h1, h2, h3, h4, hax, h6, h7]
    · have hu := applyEventFields_untouched d v "sequence"
        (by decide) (by decide) (by decide) (by decide)
      rw [hax] at hu
      exact bump_sequence_of_num _ _ _ (by rw [hu, h8])
  · intro env cfg uid d st cal st1 effs1 evt rest v h1 h2 h3 h4 h5 h6 h7 h8
    rcases hax : applyEventFields d v with ⟨v1, ch⟩
    rw [hax] at h5
    subst h5
    refine ⟨setFirstSubcomponent evt.comp "vevent" (bumpForWrite (.time env.nowMs) v1),
      bumpForWrite (.time env.nowMs) v1, ?_, getFirstSubcomponent_set _ _ _, ?_,
      bump_lastModified _ _, bump_dtstamp _ _⟩
    · simp [_updateEvent, h1, h2, h3, h4, hax, h6, h7]
    · have hu := applyEventFields_untouched d v "sequence"
        (by decide) (by decide) (by decide) (by decide)
      rw [hax] at hu
      exact bump_sequence_of_absent _ _ (by rw [hu, h8])
  · intro env cfg uid d st cal st1 effs1 td rest v n h1 h2 h3 h4 h5 h6 h7 h8
    rcases hax : applyTodoFields (.time env.nowMs) d v with ⟨v1, ch⟩
    rw [hax] at h5
    subst h5
    refine ⟨setFirstSubcomponent td.comp "vtodo" (bumpForWrite (.time env.nowMs) v1),
      bumpForWrite (.time env.nowMs) v1, ?_, getFirstSubcomponent_set _ _ _, ?_,
      bump_lastModified _ _, bump_dtstamp _ _⟩
    · simp [_updateTodo, h1, h2, h3, h4, hax, h6, h7]
    · have hu := applyTodoFields_untouched (.time env.nowMs) d v "sequence"
        (by decide) (by decide) (by decide) (by decide) (by decide) (by decide) (by decide)
      rw [hax] at hu
      exact bump_sequence_of_num _ _ _ (by rw [hu, h8])
  · intro env cfg uid d st cal st1 effs1 td rest v h1 h2 h3 h4 h5 h6 h7 h8
    rcases hax : applyTodoFields (.time env.nowMs) d v with ⟨v1, ch⟩
    rw [hax] at h5
    subst h5
    refine ⟨setFirstSubcomponent td.comp "vtodo" (bumpForWrite (.time env.nowMs) v1),
      bumpForWrite (.time env.nowMs) v1, ?_, getFirstSubcomponent_set _ _ _, ?_,
      bump_lastModified _ _, bump_dtstamp _ _⟩
    · simp [_updateTodo, h1, h2, h3, h4, hax, h6, h7]
    · have hu := applyTodoFields_untouched (.time env.nowMs) d v "sequence"
        (by decide) (by decide) (by decide) (by decide) (by decide) (by decide) (by decide)
      rw [hax] at hu
      exact bump_sequence_of_absent _ _ (by rw [hu, h8])

/-- Witness for C1: concrete runs of all four conjuncts — an event with
SEQUENCE 2 (bumped to 3), an event without SEQUENCE (set to 1), a todo with
the JS-falsy SEQUENCE 0 (bumped to 1) and a todo without SEQUENCE. -/
theorem claim_C1_witness :
    (∃ w vw,
        _updateEvent exEnv exCfg "u1" exUpdSummary [] =
          ⟨.ok (), exSt1, [.netConnect, .netList] ++ [.netQuery "VEVENT" "u1",
            .netUpdate w, .logInfo "Updated event" "u1"]⟩
      ∧ getFirstSubcomponent w "vevent" = some vw
      ∧ getFirstPropertyValue vw "sequence" = some (.num (2 + 1))
      ∧ getFirstPropertyValue vw "last-modified" = some (.time exEnv.nowMs)
      ∧ getFirstPropertyValue vw "dtstamp" = some (.time exEnv.nowMs))
  ∧ (∃ w vw,
        _updateEvent exEnvNoSeq exCfg "u1" exUpdSummary [] =
          ⟨.ok (), exSt1, [.netConnect, .netList] ++ [.netQuery "VEVENT" "u1",
            .netUpdate w, .logInfo "Updated event" "u1"]⟩
      ∧ getFirstSubcomponent w "vevent" = some vw
      ∧ getFirstPropertyValue vw "sequence" = some (.num 1)
      ∧ getFirstPropertyValue vw "last-modified" = some (.time exEnvNoSeq.nowMs)
      ∧ getFirstPropertyValue vw "dtstamp" = some (.time exEnvNoSeq.nowMs))
  ∧ (∃ w vw,
        _updateTodo exEnv exCfg "t1" exTodoUpdSummary [] =
          ⟨.ok (), exSt1, [.netConnect, .netList] ++ [.netQuery "VTODO" "t1",
            .netUpdate w, .logInfo "Updated VTODO" "t1"]⟩
      ∧ getFirstSubcomponent w "vtodo" = some vw
      ∧ getFirstPropertyValue vw "sequence" = some (.num (0 + 1))
      ∧ getFirstPropertyValue vw "last-modified" = some (.time exEnv.nowMs)
      ∧ getFirstPropertyValue vw "dtstamp" = some (.time exEnv.nowMs))
  ∧ (∃ w vw,
        _updateTodo exEnvNoSeq exCfg "t1" exTodoUpdSummary [] =
          ⟨.ok (), exSt1, [.netConnect, .netList] ++ [.netQuery "VTODO" "t1",
            .netUpdate w, .logInfo "Updated VTODO" "t1"]⟩
      ∧ getFirstSubcomponent w "vtodo" = some vw
      ∧ getFirstPropertyValue vw "sequence" = some (.num 1)
      ∧ getFirstPropertyValue vw "last-modified" = some (.time exEnvNoSeq.nowMs)
      ∧ getFirstPropertyValue vw "dtstamp" = some (.time exEnvNoSeq.nowMs)) :=
  ⟨claim_C1_sequence_bump_and_stamp_refresh.1 exEnv exCfg "u1" exUpdSummary []
      exCal exSt1 [.netConnect, .netList] exObjE [] exVevent 2
      (by decide) (by decide) (by decide) (by decide) (by decide) (by decide)
      (by decide) (by decide),
   claim_C1_sequence_bump_and_stamp_refresh.2.1 exEnvNoSeq exCfg "u1" exUpdSummary []
      exCal exSt1 [.netConnect, .netList] exObjENoSeq [] exVeventNoSeq
      (by decide) (by decide) (by decide) (by decide) (by decide) (by decide)
      (by decide) (by decide),
   claim_C1_sequence_bump_and_stamp_refresh.2.2.1 exEnv exCfg "t1" exTodoUpdSummary []
      exCal exSt1 [.netConnect, .netList] exObjT [] exVtodo 0
      (by decide) (by decide) (by decide) (by decide) (by decide) (by decide)
      (by decide) (by decide),
   claim_C1_sequence_bump_and_stamp_refresh.2.2.2 exEnvNoSeq exCfg "t1" exTodoUpdSummary []
      exCal exSt1 [.netConnect, .netList] exObjTNoSeq [] exVtodoNoSeq
      (by decide) (by decide) (by decide) (by decide) (by decide) (by decide)
      (by decide) (by decide)⟩

/-- C2 counterexample: a located event whose payload provides only `start`,
with exactly the value the object already has (`dtstart` is the instant 0
and the payload provides 0) — yet `_updateEvent` issues a network write:
start/end/description are applied unconditionally when provided, so the
claimed "identical payload ⇒ zero writes" is false as stated. -/
theorem claim_C2_counterexample :
    (exUpdSameStart.summary = none ∧ exUpdSameStart.start = some 0
      ∧ exUpdSameStart.endTs = none ∧ exUpdSameStart.description = none
      ∧ getFirstPropertyValue exVevent "dtstart" = some (.time 0)
      ∧ exEnv.findEvents "u1" = [exObjE]
      ∧ getFirstSubcomponent exObjE.comp "vevent" = some exVevent)
  ∧ netWrites (_updateEvent exEnv exCfg "u1" exUpdSameStart []).effs ≠ [] := by
  decide

/-- C2 amended: `_updateEvent`/`_updateTodo` perform zero writes only when
the payload provides none of the unconditionally-applied fields (start, end,
description for events; description, status, percent-complete, priority,
due date for todos) and any provided summary equals the object's current
summary; the call then returns successfully having issued only the locate
query.  (A provided field from the unconditional set triggers a write — and
a SEQUENCE bump — even when its value equals the current one.) -/
theorem claim_C2_amended_noop_conditions :
    (∀ (env : Env) (cfg : CaldavCalendarCfg) (uid : String) (d : EventUpdate)
      (st : Cache) (cal : Calendar) (st1 : Cache) (effs1 : List Eff)
      (evt : RemoteObject) (rest : List RemoteObject) (v : Component),
      _getCalendar env cfg st = ⟨.ok cal, st1, effs1⟩ →
      cal.readOnly = false →
      env.findEvents uid = evt :: rest →
      getFirstSubcomponent evt.comp "vevent" = some v →
      d.start = none → d.endTs = none → d.description = none →
      (∀ s, d.summary = some s → getFirstPropertyValue v "summary" = some (.str s)) →
      _updateEvent env cfg uid d st = ⟨.ok (), st1, effs1 ++ [.netQuery "VEVENT" uid]⟩
      ∧ netWrites (_updateEvent env cfg uid d st).effs = [])
  ∧ (∀ (env : Env) (cfg : CaldavCalendarCfg) (uid : String) (d : TodoUpdate)
      (st : Cache) (cal : Calendar) (st1 : Cache) (effs1 : List Eff)
      (td : RemoteObject) (rest : List RemoteObject) (v : Component),
      _getCalendar env cfg st = ⟨.ok cal, st1, effs1⟩ →
      cal.readOnly = false →
      env.findTodos uid = td :: rest →
      getFirstSubcomponent td.comp "vtodo" = some v →
      d.description = none → d.status = none → d.percentComplete = none →
      d.priority = none → d.dueDate = none →
      (∀ s, d.summary = some s → getFirstPropertyValue v "summary" = some (.str s)) →
      _updateTodo env cfg uid d st = ⟨.ok (), st1, effs1 ++ [.netQuery "VTODO" uid]⟩
      ∧ netWrites (_updateTodo env cfg uid d st).effs = []) := by
  constructor
  · intro env cfg uid d st cal st1 effs1 evt rest v h1 h2 h3 h4 hs he hd hsum
    have hax : applyEventFields d v = (v, false) := by
      unfold applyEventFields
      rcases hsm : d.summary with _ | s
      · simp [hs, he, hd]
      · have hold := hsum s hsm
        simp [hs, he, hd, hold]
    have heffs1 : netWrites effs1 = [] := by
      have hg := getCalendar_netWrites env cfg st
      rw [h1] at hg
      simpa using hg
    have heq : _updateEvent env cfg uid d st =
        ⟨.ok (), st1, effs1 ++ [.netQuery "VEVENT" uid]⟩ := by
      simp [_updateEvent, h1, h2, h3, h4, hax]
    refine ⟨heq, ?_⟩
    rw [heq]
    simp only [Step.effs]
    rw [netWrites_append, heffs1]
    rfl
  · intro env cfg uid d st cal st1 effs1 td rest v h1 h2 h3 h4 hd hst hp hpr hdu hsum
    have hax : applyTodoFields (.time env.nowMs) d v = (v, false) := by
      unfold applyTodoFields
      rcases hsm : d.summary with _ | s
      · simp [hd, hst, hp, hpr, hdu]
      · have hold := hsum s hsm
        simp [hd, hst, hp, hpr, hdu, hold]
    have heffs1 : netWrites effs1 = [] := by
      have hg := getCalendar_netWrites env cfg st
      rw [h1] at hg
      simpa using hg
    have heq : _updateTodo env cfg uid d st =
        ⟨.ok (), st1, effs1 ++ [.netQuery "VTODO" uid]⟩ := by
      simp [_updateTodo, h1, h2, h3, h4, hax]
    refine ⟨heq, ?_⟩
    rw [heq]
    simp only [Step.effs]
    rw [netWrites_append, heffs1]
    rfl

/-- Witness for the amended C2: a payload providing only the unchanged
summary produces zero writes, for the event and for the todo. -/
theorem claim_C2_witness :
    (_updateEvent exEnv exCfg "u1" exUpdSameSummary [] =
        ⟨.ok (), exSt1, [.netConnect, .netList] ++ [.netQuery "VEVENT" "u1"]⟩
      ∧ netWrites (_updateEvent exEnv exCfg "u1" exUpdSameSummary []).effs = [])
  ∧ (_updateTodo exEnv exCfg "t1" exTodoUpdSameSummary [] =
        ⟨.ok (), exSt1, [.netConnect, .netList] ++ [.netQuery "VTODO" "t1"]⟩
      ∧ netWrites (_updateTodo exEnv exCfg "t1" exTodoUpdSameSummary []).effs = []) :=
  ⟨claim_C2_amended_noop_conditions.1 exEnv exCfg "u1" exUpdSameSummary []
      exCal exSt1 [.netConnect, .netList] exObjE [] exVevent
      (by decide) (by decide) (by decide) (by decide) (by decide) (by decide)
      (by decide)
      (by
        intro s hs
        simp only [exUpdSameSummary] at hs
        cases hs
        decide),
   claim_C2_amended_noop_conditions.2 exEnv exCfg "t1" exTodoUpdSameSummary []
      exCal exSt1 [.netConnect, .netList] exObjT [] exVtodo
      (by decide) (by decide) (by decide) (by decide) (by decide) (by decide)
      (by decide) (by decide) (by decide)
      (by
        intro s hs
        simp only [exTodoUpdSameSummary] at hs
        cases hs
        decide)⟩

/-- C3: on a read-only calendar every create/update verb fails with the
calendar-read-only error having issued no network write, while
`_deleteEvent`/`_deleteTodo` perform no read-only check and attempt the
deletion regardless (the two delete conjuncts carry no hypothesis on
`cal.readOnly`, so they hold in particular for a read-only calendar — the
witness runs them against one). -/
theorem claim_C3_readonly_gate :
    (∀ (env : Env) (cfg : CaldavCalendarCfg) (dat : CalendarEventData) (st : Cache)
      (cal : Calendar) (st1 : Cache) (effs1 : List Eff),
      _getCalendar env cfg st = ⟨.ok cal, st1, effs1⟩ →
      cal.readOnly = true →
      _createEvent env cfg dat st =
        ⟨.error (.calendarReadOnly (jsStr cfg.calendarName)), st1,
          effs1 ++ [.snack "CALENDAR_READ_ONLY"]⟩
      ∧ netWrites (_createEvent env cfg dat st).effs = [])
  ∧ (∀ (env : Env) (cfg : CaldavCalendarCfg) (uid : String) (d : EventUpdate)
      (st : Cache) (cal : Calendar) (st1 : Cache) (effs1 : List Eff),
      _getCalendar env cfg st = ⟨.ok cal, st1, effs1⟩ →
      cal.readOnly = true →
      _updateEvent env cfg uid d st =
        ⟨.error (.calendarReadOnly (jsStr cfg.calendarName)), st1,
          effs1 ++ [.snack "CALENDAR_READ_ONLY"]⟩
      ∧ netWrites (_updateEvent env cfg uid d st).effs = [])
  ∧ (∀ (env : Env) (cfg : CaldavCalendarCfg) (dat : CalendarTodoData) (st : Cache)
      (cal : Calendar) (st1 : Cache) (effs1 : List Eff),
      _getCalendar env cfg st = ⟨.ok cal, st1, effs1⟩ →
      cal.readOnly = true →
      _createTodo env cfg dat st =
        ⟨.error (.calendarReadOnly (jsStr cfg.calendarName)), st1,
          effs1 ++ [.snack "CALENDAR_READ_ONLY"]⟩
      ∧ netWrites (_createTodo env cfg dat st).effs = [])
  ∧ (∀ (env : Env) (cfg : CaldavCalendarCfg) (uid : String) (d : TodoUpdate)
      (st : Cache) (cal : Calendar) (st1 : Cache) (effs1 : List Eff),
      _getCalendar env cfg st = ⟨.ok cal, st1, effs1⟩ →
      cal.readOnly = true →
      _updateTodo env cfg uid d st =
        ⟨.error (.calendarReadOnly (jsStr cfg.calendarName)), st1,
          effs1 ++ [.snack "CALENDAR_READ_ONLY"]⟩
      ∧ netWrites (_updateTodo env cfg uid d st).effs = [])
  ∧ (∀ (env : Env) (cfg : CaldavCalendarCfg) (uid : String) (st : Cache)
      (cal : Calendar) (st1 : Cache) (effs1 : List Eff) (evt : RemoteObject)
      (rest : List RemoteObject),
      _getCalendar env cfg st = ⟨.ok cal, st1, effs1⟩ →
      env.findEvents uid = evt :: rest →
      evt.hasDelete = true →
      env.deleteOk = true →
      _deleteEvent env cfg uid st =
        ⟨.ok (), st1, effs1 ++ [.netQuery "VEVENT" uid, .netDelete,
          .logInfo "Deleted event" uid]⟩)
  ∧ (∀ (env : Env) (cfg : CaldavCalendarCfg) (uid : String) (st : Cache)
      (cal : Calendar) (st1 : Cache) (effs1 : List Eff) (td : RemoteObject)
      (rest : List RemoteObject),
      _getCalendar env cfg st = ⟨.ok cal, st1, effs1⟩ →
      env.findTodos uid = td :: rest →
      td.hasDelete = true →
      env.deleteOk = true →
      _deleteTodo env cfg uid st =
        ⟨.ok (), st1, effs1 ++ [.netQuery "VTODO" uid, .netDelete,
          .logInfo "Deleted VTODO" uid]⟩) := by
  have hne : ∀ (env : Env) (cfg : CaldavCalendarCfg) (st : Cache)
      (r : Except CaldavError Calendar) (st1 : Cache) (effs1 : List Eff),
      _getCalendar env cfg st = ⟨r, st1, effs1⟩ → netWrites effs1 = [] := by
    intro env cfg st r st1 effs1 h1
    have hg := getCalendar_netWrites env cfg st
    rw [h1] at hg
    simpa using hg
  refine ⟨?_, ?_, ?_, ?_, ?_, ?_⟩
  · intro env cfg dat st cal st1 effs1 h1 h2
    have heq : _createEvent env cfg dat st =
        ⟨.error (.calendarReadOnly (jsStr cfg.calendarName)), st1,
          effs1 ++ [.snack "CALENDAR_READ_ONLY"]⟩ := by
      simp [_createEvent, h1, h2]
    refine ⟨heq, ?_⟩
    rw [heq]
    simp only [Step.effs]
    rw [netWrites_append, hne env cfg st _ _ _ h1]
    rfl
  · intro env cfg uid d st cal st1 effs1 h1 h2
    have heq : _updateEvent env cfg uid d st =
        ⟨.error (.calendarReadOnly (jsStr cfg.calendarName)), st1,
          effs1 ++ [.snack "CALENDAR_READ_ONLY"]⟩ := by
      simp [_updateEvent, h1, h2]
    refine ⟨heq, ?_⟩
    rw [heq]
    simp only [Step.effs]
    rw [netWrites_append, hne env cfg st _ _ _ h1]
    rfl
  · intro env cfg dat st cal st1 effs1 h1 h2
    have heq : _createTodo env cfg dat st =
        ⟨.error (.calendarReadOnly (jsStr cfg.calendarName)), st1,
          effs1 ++ [.snack "CALENDAR_READ_ONLY"]⟩ := by
      simp [_createTodo, h1, h2]
    refine ⟨heq, ?_⟩
    rw [heq]
    simp only [Step.effs]
    rw [netWrites_append, hne env cfg st _ _ _ h1]
    rfl
  · intro env cfg uid d st cal st1 effs1 h1 h2
    have heq : _updateTodo env cfg uid d st =
        ⟨.error (.calendarReadOnly (jsStr cfg.calendarName)), st1,
          effs1 ++ [.snack "CALENDAR_READ_ONLY"]⟩ := by
      simp [_updateTodo, h1, h2]
    refine ⟨heq, ?_⟩
    rw [heq]
    simp only [Step.effs]
    rw [netWrites_append, hne env cfg st _ _ _ h1]
    rfl
  · intro env cfg uid st cal st1 effs1 evt rest h1 h3 h4 h5
    simp [_deleteEvent, h1, h3, h4, h5]
  · intro env cfg uid st cal st1 effs1 td rest h1 h3 h4 h5
    simp [_deleteTodo, h1, h3, h4, h5]

/-- Witness for C3: against the read-only "Work" calendar, all four
create/update verbs fail without a write, and both deletes still delete. -/
theorem claim_C3_witness :
    (_createEvent exEnvReadOnly exCfg exEventData [] =
        ⟨.error (.calendarReadOnly (jsStr exCfg.calendarName)), exSt1ReadOnly,
          [.netConnect, .netList] ++ [.snack "CALENDAR_READ_ONLY"]⟩
      ∧ netWrites (_createEvent exEnvReadOnly exCfg exEventData []).effs = [])
  ∧ (_updateEvent exEnvReadOnly exCfg "u1" exUpdSummary [] =
        ⟨.error (.calendarReadOnly (jsStr exCfg.calendarName)), exSt1ReadOnly,
          [.netConnect, .netList] ++ [.snack "CALENDAR_READ_ONLY"]⟩
      ∧ netWrites (_updateEvent exEnvReadOnly exCfg "u1" exUpdSummary []).effs = [])
  ∧ (_createTodo exEnvReadOnly exCfg exTodoData [] =
        ⟨.error (.calendarReadOnly (jsStr exCfg.calendarName)), exSt1ReadOnly,
          [.netConnect, .netList] ++ [.snack "CALENDAR_READ_ONLY"]⟩
      ∧ netWrites (_createTodo exEnvReadOnly exCfg exTodoData []).effs = [])
  ∧ (_updateTodo exEnvReadOnly exCfg "t1" exTodoUpdSummary [] =
        ⟨.error (.calendarReadOnly (jsStr exCfg.calendarName)), exSt1ReadOnly,
          [.netConnect, .netList] ++ [.snack "CALENDAR_READ_ONLY"]⟩
      ∧ netWrites (_updateTodo exEnvReadOnly exCfg "t1" exTodoUpdSummary []).effs = [])
  ∧ (_deleteEvent exEnvReadOnly exCfg "u1" [] =
        ⟨.ok (), exSt1ReadOnly, [.netConnect, .netList] ++ [.netQuery "VEVENT" "u1",
          .netDelete, .logInfo "Deleted event" "u1"]⟩)
  ∧ (_deleteTodo exEnvReadOnly exCfg "t1" [] =
        ⟨.ok (), exSt1ReadOnly, [.netConnect, .netList] ++ [.netQuery "VTODO" "t1",
          .netDelete, .logInfo "Deleted VTODO" "t1"]⟩) :=
  ⟨claim_C3_readonly_gate.1 exEnvReadOnly exCfg exEventData []
      exCalReadOnly exSt1ReadOnly [.netConnect, .netList] (by decide) (by decide),
   claim_C3_readonly_gate.2.1 exEnvReadOnly exCfg "u1" exUpdSummary []
      exCalReadOnly exSt1ReadOnly [.netConnect, .netList] (by decide) (by decide),
   claim_C3_readonly_gate.2.2.1 exEnvReadOnly exCfg exTodoData []
      exCalReadOnly exSt1ReadOnly [.netConnect, .netList] (by decide) (by decide),
   claim_C3_readonly_gate.2.2.2.1 exEnvReadOnly exCfg "t1" exTodoUpdSummary []
      exCalReadOnly exSt1ReadOnly [.netConnect, .netList] (by decide) (by decide),
   claim_C3_readonly_gate.2.2.2.2.1 exEnvReadOnly exCfg "u1" []
      exCalReadOnly exSt1ReadOnly [.netConnect, .netList] exObjE []
      (by decide) (by decide) (by decide) (by decide),
   claim_C3_readonly_gate.2.2.2.2.2 exEnvReadOnly exCfg "t1" []
      exCalReadOnly exSt1ReadOnly [.netConnect, .netList] exObjT []
      (by decide) (by decide) (by decide) (by decide)⟩

/-- C4: when the locate query returns zero matches, `_updateEvent`,
`_deleteEvent`, `_updateTodo` and `_deleteTodo` all return successfully
(no thrown error), log a warning, and issue no write or delete — the only
network access past resolution is the locate query itself. -/
theorem claim_C4_zero_match_noop :
    (∀ (env : Env) (cfg : CaldavCalendarCfg) (uid : String) (d : EventUpdate)
      (st : Cache) (cal : Calendar) (st1 : Cache) (effs1 : List Eff),
      _getCalendar env cfg st = ⟨.ok cal, st1, effs1⟩ →
      cal.readOnly = false →
      env.findEvents uid = [] →
      _updateEvent env cfg uid d st =
        ⟨.ok (), st1, effs1 ++ [.netQuery "VEVENT" uid,
          .logWarn "Event not found for update" uid]⟩
      ∧ netWrites (_updateEvent env cfg uid d st).effs = [])
  ∧ (∀ (env : Env) (cfg : CaldavCalendarCfg) (uid : String) (st : Cache)
      (cal : Calendar) (st1 : Cache) (effs1 : List Eff),
      _getCalendar env cfg st = ⟨.ok cal, st1, effs1⟩ →
      env.findEvents uid = [] →
      _deleteEvent env cfg uid st =
        ⟨.ok (), st1, effs1 ++ [.netQuery "VEVENT" uid,
          .logWarn "Event not found for deletion" uid]⟩
      ∧ netWrites (_deleteEvent env cfg uid st).effs = [])
  ∧ (∀ (env : Env) (cfg : CaldavCalendarCfg) (uid : String) (d : TodoUpdate)
      (st : Cache) (cal : Calendar) (st1 : Cache) (effs1 : List Eff),
      _getCalendar env cfg st = ⟨.ok cal, st1, effs1⟩ →
      cal.readOnly = false →
      env.findTodos uid = [] →
      _updateTodo env cfg uid d st =
        ⟨.ok (), st1, effs1 ++ [.netQuery "VTODO" uid,
          .logWarn "VTODO not found for update" uid]⟩
      ∧ netWrites (_updateTodo env cfg uid d st).effs = [])
  ∧ (∀ (env : Env) (cfg : CaldavCalendarCfg) (uid : String) (st : Cache)
      (cal : Calendar) (st1 : Cache) (effs1 : List Eff),
      _getCalendar env cfg st = ⟨.ok cal, st1, effs1⟩ →
      env.findTodos uid = [] →
      _deleteTodo env cfg uid st =
        ⟨.ok (), st1, effs1 ++ [.netQuery "VTODO" uid,
          .logWarn "VTODO not found for deletion" uid]⟩
      ∧ netWrites (_deleteTodo env cfg uid st).effs = []) := by
  have hne : ∀ (env : Env) (cfg : CaldavCalendarCfg) (st : Cache)
      (r : Except CaldavError Calendar) (st1 : Cache) (effs1 : List Eff),
      _getCalendar env cfg st = ⟨r, st1, effs1⟩ → netWrites effs1 = [] := by
    intro env cfg st r st1 effs1 h1
    have hg := getCalendar_netWrites env cfg st
    rw [h1] at hg
    simpa using hg
  refine ⟨?_, ?_, ?_, ?_⟩
  · intro env cfg uid d st cal st1 effs1 h1 h2 h3
    have heq : _updateEvent env cfg uid d st =
        ⟨.ok (), st1, effs1 ++ [.netQuery "VEVENT" uid,
          .logWarn "Event not found for update" uid]⟩ := by
      simp [_updateEvent, h1, h2, h3]
    refine ⟨heq, ?_⟩
    rw [heq]
    simp only [Step.effs]
    rw [netWrites_append, hne env cfg st _ _ _ h1]
    rfl
  · intro env cfg uid st cal st1 effs1 h1 h3
    have heq : _deleteEvent env cfg uid st =
        ⟨.ok (), st1, effs1 ++ [.netQuery "VEVENT" uid,
          .logWarn "Event not found for deletion" uid]⟩ := by
      simp [_deleteEvent, h1, h3]
    refine ⟨heq, ?_⟩
    rw [heq]
    simp only [Step.effs]
    rw [netWrites_append, hne env cfg st _ _ _ h1]
    rfl
  · intro env cfg uid d st cal st1 effs1 h1 h2 h3
    have heq : _updateTodo env cfg uid d st =
        ⟨.ok (), st1, effs1 ++ [.netQuery "VTODO" uid,
          .logWarn "VTODO not found for update" uid]⟩ := by
      simp [_updateTodo, h1, h2, h3]
    refine ⟨heq, ?_⟩
    rw [heq]
    simp only [Step.effs]
    rw [netWrites_append, hne env cfg st _ _ _ h1]
    rfl
  · intro env cfg uid st cal st1 effs1 h1 h3
    have heq : _deleteTodo env cfg uid st =
        ⟨.ok (), st1, effs1 ++ [.netQuery "VTODO" uid,
          .logWarn "VTODO not found for deletion" uid]⟩ := by
      simp [_deleteTodo, h1, h3]
    refine ⟨heq, ?_⟩
    rw [heq]
    simp only [Step.effs]
    rw [netWrites_append, hne env cfg st _ _ _ h1]
    rfl

/-- Witness for C4: an environment whose locate queries return no matches,
for all four verbs. -/
theorem claim_C4_witness :
    (_updateEvent exEnvEmpty exCfg "gone" exUpdSummary [] =
        ⟨.ok (), exSt1, [.netConnect, .netList] ++ [.netQuery "VEVENT" "gone",
          .logWarn "Event not found for update" "gone"]⟩
      ∧ netWrites (_updateEvent exEnvEmpty exCfg "gone" exUpdSummary []).effs = [])
  ∧ (_deleteEvent exEnvEmpty exCfg "gone" [] =
        ⟨.ok (), exSt1, [.netConnect, .netList] ++ [.netQuery "VEVENT" "gone",
          .logWarn "Event not found for deletion" "gone"]⟩
      ∧ netWrites (_deleteEvent exEnvEmpty exCfg "gone" []).effs = [])
  ∧ (_updateTodo exEnvEmpty exCfg "gone" exTodoUpdSummary [] =
        ⟨.ok (), exSt1, [.netConnect, .netList] ++ [.netQuery "VTODO" "gone",
          .logWarn "VTODO not found for update" "gone"]⟩
      ∧ netWrites (_updateTodo exEnvEmpty exCfg "gone" exTodoUpdSummary []).effs = [])
  ∧ (_deleteTodo exEnvEmpty exCfg "gone" [] =
        ⟨.ok (), exSt1, [.netConnect, .netList] ++ [.netQuery "VTODO" "gone",
          .logWarn "VTODO not found for deletion" "gone"]⟩
      ∧ netWrites (_deleteTodo exEnvEmpty exCfg "gone" []).effs = []) :=
  ⟨claim_C4_zero_match_noop.1 exEnvEmpty exCfg "gone" exUpdSummary []
      exCal exSt1 [.netConnect, .netList] (by decide) (by decide) (by decide),
   claim_C4_zero_match_noop.2.1 exEnvEmpty exCfg "gone" []
      exCal exSt1 [.netConnect, .netList] (by decide) (by decide),
   claim_C4_zero_match_noop.2.2.1 exEnvEmpty exCfg "gone" exTodoUpdSummary []
      exCal exSt1 [.netConnect, .netList] (by decide) (by decide) (by decide),
   claim_C4_zero_match_noop.2.2.2 exEnvEmpty exCfg "gone" []
      exCal exSt1 [.netConnect, .netList] (by decide) (by decide)⟩

/-- C5: with a configured non-empty calendar name absent from the server
listing, `testConnection` leaves the session cache cleared (second
component `[]`) and returns success with all listed display names and the
non-fatal error string naming the missing calendar and the comma-space
joined alternatives; a hard connection failure instead yields
`success = false`. -/
theorem claim_C5_testConnection_missing_calendar :
    (∀ (env : Env) (cfg : CaldavCalendarCfg) (st : Cache) (name : String),
      cfg.calendarName = some name → name ≠ "" →
      env.connectOk = true → env.hasCalendarHome = true → env.listOk = true →
      (env.calendars.map calName).contains name = false →
      testConnection env cfg st =
        ({ success := true, calendars := some (env.calendars.map calName),
           error := some ("Calendar \x22" ++ name ++ "\x22 not found. Available: "
             ++ String.intercalate ", " (env.calendars.map calName)) }, []))
  ∧ (∀ (env : Env) (cfg : CaldavCalendarCfg) (st : Cache),
      env.connectOk = false →
      (testConnection env cfg st).1.success = false) := by
  constructor
  · intro env cfg st name h1 hname hc hh hl hcont
    have hcont2 : ∀ x ∈ env.calendars, ¬calName x = name := by simpa using hcont
    simp [testConnection, h1, hname, hc, hh, hl, jsTruthyStrOpt, jsStr]
    exact hcont2
  · intro env cfg st h
    simp [testConnection, h]

/-- Witness for C5: the spec scenario — target "Work", listing
["Home", "Personal"] — and a refused connection. -/
theorem claim_C5_witness :
    testConnection exEnvListing exCfg [(exKey, [("Work", exCal)])] =
      ({ success := true, calendars := some ["Home", "Personal"],
         error := some "Calendar \x22Work\x22 not found. Available: Home, Personal" },
        [])
  ∧ (testConnection exEnvDown exCfg []).1.success = false :=
  ⟨claim_C5_testConnection_missing_calendar.1 exEnvListing exCfg
      [(exKey, [("Work", exCal)])] "Work"
      (by decide) (by decide) (by decide) (by decide) (by decide) (by decide),
   claim_C5_testConnection_missing_calendar.2 exEnvDown exCfg [] (by decide)⟩

/-- C6: on a writable calendar, `_createEvent` returns the uid given in the
event record — or, when the given uid is empty/absent, `"sp-"` followed by
the generated UUID — and the ICS text written to the server contains the
`UID:` line for that uid, `SEQUENCE:0`, `VERSION:2.0` and the fixed
`PRODID`. -/
theorem claim_C6_createEvent_uid_and_ics :
    ∀ (env : Env) (cfg : CaldavCalendarCfg) (dat : CalendarEventData) (st : Cache)
      (cal : Calendar) (st1 : Cache) (effs1 : List Eff),
      _getCalendar env cfg st = ⟨.ok cal, st1, effs1⟩ →
      cal.readOnly = false →
      env.createOk = true →
      ∃ lines,
        _createEvent env cfg dat st =
          ⟨.ok (if dat.uid ≠ "" then dat.uid else "sp-" ++ env.uuid), st1,
            effs1 ++ [.netCreate lines, .logInfo "Created event"
              (if dat.uid ≠ "" then dat.uid else "sp-" ++ env.uuid)]⟩
        ∧ ("UID:" ++ (if dat.uid ≠ "" then dat.uid else "sp-" ++ env.uuid)) ∈ lines
        ∧ "SEQUENCE:0" ∈ lines
        ∧ "VERSION:2.0" ∈ lines
        ∧ "PRODID:-//Super Productivity//CalDAV Calendar Sync//EN" ∈ lines := by
  intro env cfg dat st cal st1 effs1 h1 h2 h3
  refine ⟨eventIcalLines (if dat.uid ≠ "" then dat.uid else "sp-" ++ env.uuid)
      (env.fmt env.nowMs) (env.fmt dat.start) (env.fmt dat.endTs) dat.summary
      dat.description, ?_, ?_, ?_, ?_, ?_⟩
  · simp [_createEvent, h1, h2, h3]
  · simp [eventIcalLines]
  · simp [eventIcalLines]
  · simp [eventIcalLines]
  · simp [eventIcalLines]

/-- Witness for C6: a record carrying uid "sp-task-42" (returned as is) and
the same record with an empty uid (a fresh `"sp-" + UUID` is returned). -/
theorem claim_C6_witness :
    (∃ lines,
        _createEvent exEnv exCfg exEventData [] =
          ⟨.ok "sp-task-42", exSt1, [.netConnect, .netList] ++ [.netCreate lines,
            .logInfo "Created event" "sp-task-42"]⟩
        ∧ "UID:sp-task-42" ∈ lines
        ∧ "SEQUENCE:0" ∈ lines
        ∧ "VERSION:2.0" ∈ lines
        ∧ "PRODID:-//Super Productivity//CalDAV Calendar Sync//EN" ∈ lines)
  ∧ (∃ lines,
        _createEvent exEnv exCfg exEventDataNoUid [] =
          ⟨.ok ("sp-" ++ exEnv.uuid), exSt1, [.netConnect, .netList] ++ [.netCreate lines,
            .logInfo "Created event" ("sp-" ++ exEnv.uuid)]⟩
        ∧ ("UID:sp-" ++ exEnv.uuid) ∈ lines
        ∧ "SEQUENCE:0" ∈ lines
        ∧ "VERSION:2.0" ∈ lines
        ∧ "PRODID:-//Super Productivity//CalDAV Calendar Sync//EN" ∈ lines) :=
  ⟨claim_C6_createEvent_uid_and_ics exEnv exCfg exEventData []
      exCal exSt1 [.netConnect, .netList] (by decide) (by decide) (by decide),
   claim_C6_createEvent_uid_and_ics exEnv exCfg exEventDataNoUid []
      exCal exSt1 [.netConnect, .netList] (by decide) (by decide) (by decide)⟩

/-- C7: with an invalid configuration (disabled, or any empty/absent string
field) every sync verb — create/update/delete event, create/update/
complete/delete todo — fails with the NotConfigured error and its complete
effect list is the single notification, i.e. no network access of any kind;
`testConnection` performs no settings-validity check: its outcome depends
only on the configured calendar name (and the environment), never on
enabledness or credentials being non-empty. -/
theorem claim_C7_not_configured_gate :
    (∀ (env : Env) (cfg : CaldavCalendarCfg) (dat : CalendarEventData) (st : Cache),
      _isValidSettings cfg = false →
      _createEvent env cfg dat st =
        ⟨.error .notConfigured, st, [.snack "ERR_NOT_CONFIGURED"]⟩)
  ∧ (∀ (env : Env) (cfg : CaldavCalendarCfg) (uid : String) (d : EventUpdate)
      (st : Cache),
      _isValidSettings cfg = false →
      _updateEvent env cfg uid d st =
        ⟨.error .notConfigured, st, [.snack "ERR_NOT_CONFIGURED"]⟩)
  ∧ (∀ (env : Env) (cfg : CaldavCalendarCfg) (uid : String) (st : Cache),
      _isValidSettings cfg = false →
      _deleteEvent env cfg uid st =
        ⟨.error .notConfigured, st, [.snack "ERR_NOT_CONFIGURED"]⟩)
  ∧ (∀ (env : Env) (cfg : CaldavCalendarCfg) (dat : CalendarTodoData) (st : Cache),
      _isValidSettings cfg = false →
      _createTodo env cfg dat st =
        ⟨.error .notConfigured, st, [.snack "ERR_NOT_CONFIGURED"]⟩)
  ∧ (∀ (env : Env) (cfg : CaldavCalendarCfg) (uid : String) (d : TodoUpdate)
      (st : Cache),
      _isValidSettings cfg = false →
      _updateTodo env cfg uid d st =
        ⟨.error .notConfigured, st, [.snack "ERR_NOT_CONFIGURED"]⟩)
  ∧ (∀ (env : Env) (cfg : CaldavCalendarCfg) (uid : String) (st : Cache),
      _isValidSettings cfg = false →
      completeTodo env cfg uid st =
        ⟨.error .notConfigured, st, [.snack "ERR_NOT_CONFIGURED"]⟩)
  ∧ (∀ (env : Env) (cfg : CaldavCalendarCfg) (uid : String) (st : Cache),
      _isValidSettings cfg = false →
      _deleteTodo env cfg uid st =
        ⟨.error .notConfigured, st, [.snack "ERR_NOT_CONFIGURED"]⟩)
  ∧ (∀ (env : Env) (cfg cfg2 : CaldavCalendarCfg) (st st2 : Cache),
      cfg.calendarName = cfg2.calendarName →
      testConnection env cfg st = testConnection env cfg2 st2) := by
  refine ⟨?_, ?_, ?_, ?_, ?_, ?_, ?_, ?_⟩
  · intro env cfg dat st h
    simp [_createEvent, _getCalendar, _getClient, h]
  · intro env cfg uid d st h
    simp [_updateEvent, _getCalendar, _getClient, h]
  · intro env cfg uid st h
    simp [_deleteEvent, _getCalendar, _getClient, h]
  · intro env cfg dat st h
    simp [_createTodo, _getCalendar, _getClient, h]
  · intro env cfg uid d st h
    simp [_updateTodo, _getCalendar, _getClient, h]
  · intro env cfg uid st h
    simp [completeTodo, _updateTodo, _getCalendar, _getClient, h]
  · intro env cfg uid st h
    simp [_deleteTodo, _getCalendar, _getClient, h]
  · intro env cfg cfg2 st st2 h
    simp [testConnection, h]

/-- Witness for C7: the disabled configuration is rejected by every verb
with no network effect, while `testConnection` treats the valid and the
disabled configuration (same calendar name) identically. -/
theorem claim_C7_witness :
    (_createEvent exEnv exCfgDisabled exEventData [] =
        ⟨.error .notConfigured, [], [.snack "ERR_NOT_CONFIGURED"]⟩)
  ∧ (_updateEvent exEnv exCfgDisabled "u1" exUpdSummary [] =
        ⟨.error .notConfigured, [], [.snack "ERR_NOT_CONFIGURED"]⟩)
  ∧ (_deleteEvent exEnv exCfgDisabled "u1" [] =
        ⟨.error .notConfigured, [], [.snack "ERR_NOT_CONFIGURED"]⟩)
  ∧ (_createTodo exEnv exCfgDisabled exTodoData [] =
        ⟨.error .notConfigured, [], [.snack "ERR_NOT_CONFIGURED"]⟩)
  ∧ (_updateTodo exEnv exCfgDisabled "t1" exTodoUpdSummary [] =
        ⟨.error .notConfigured, [], [.snack "ERR_NOT_CONFIGURED"]⟩)
  ∧ (completeTodo exEnv exCfgDisabled "t1" [] =
        ⟨.error .notConfigured, [], [.snack "ERR_NOT_CONFIGURED"]⟩)
  ∧ (_deleteTodo exEnv exCfgDisabled "t1" [] =
        ⟨.error .notConfigured, [], [.snack "ERR_NOT_CONFIGURED"]⟩)
  ∧ (testConnection exEnvListing exCfg [] =
      testConnection exEnvListing exCfgDisabled [(exKey, [("Work", exCal)])]) :=
  ⟨claim_C7_not_configured_gate.1 exEnv exCfgDisabled exEventData [] (by decide),
   claim_C7_not_configured_gate.2.1 exEnv exCfgDisabled "u1" exUpdSummary [] (by decide),
   claim_C7_not_configured_gate.2.2.1 exEnv exCfgDisabled "u1" [] (by decide),
   claim_C7_not_configured_gate.2.2.2.1 exEnv exCfgDisabled exTodoData [] (by decide),
   claim_C7_not_configured_gate.2.2.2.2.1 exEnv exCfgDisabled "t1" exTodoUpdSummary []
     (by decide),
   claim_C7_not_configured_gate.2.2.2.2.2.1 exEnv exCfgDisabled "t1" [] (by decide),
   claim_C7_not_configured_gate.2.2.2.2.2.2.1 exEnv exCfgDisabled "t1" [] (by decide),
   claim_C7_not_configured_gate.2.2.2.2.2.2.2 exEnvListing exCfg exCfgDisabled []
     [(exKey, [("Work", exCal)])] (by decide)⟩

theorem replaceChar_append (c : Char) (r : List Char) (a b : List Char) :
    replaceChar c r (a ++ b) = replaceChar c r a ++ replaceChar c r b := by
  induction a with
  | nil => rfl
  | cons x xs ih => simp [replaceChar, ih]

/-- C8: the escape function is the four substitutions backslash → `\\`,
`;` → `\;`, `,` → `\,`, newline → `\n`, applied in exactly that order — and
that order makes the composition equal to a single simultaneous pass
(`escCharSpec`), i.e. backslashes introduced by the later substitutions are
never themselves re-escaped.  Stated for the character-list pipeline and for
`_escapeIcalText` itself. -/
theorem claim_C8_escape_single_pass :
    (∀ l : List Char, escapeIcalChars l = l.flatMap escCharSpec)
  ∧ (∀ s : String, _escapeIcalText s = ⟨s.data.flatMap escCharSpec⟩) := by
  have main : ∀ l : List Char, escapeIcalChars l = l.flatMap escCharSpec := by
    intro l
    induction l with
    | nil => rfl
    | cons x xs ih =>
      have hsplit : escapeIcalChars (x :: xs) =
          escapeIcalChars [x] ++ escapeIcalChars xs := by
        simp only [escapeIcalChars]
        rw [show (x :: xs) = [x] ++ xs from rfl]
        rw [replaceChar_append, replaceChar_append, replaceChar_append,
          replaceChar_append]
      have hx : escapeIcalChars [x] = escCharSpec x := by
        by_cases h1 : x = '\\'
        · subst h1; decide
        · by_cases h2 : x = ';'
          · subst h2; decide
          · by_cases h3 : x = ','
            · subst h3; decide
            · by_cases h4 : x = '\n'
              · subst h4; decide
              · simp [escapeIcalChars, replaceChar, escCharSpec, h1, h2, h3, h4]
      rw [hsplit, hx, ih, List.flatMap_cons]
  exact ⟨main, fun s => by simp only [_escapeIcalText, main s.data]⟩

/-- C9: when the located remote object carries no `update` (respectively
`delete`) capability handle, the mutating update (one with at least one
changed field) and the delete complete successfully and log the
"Updated"/"Deleted" informational message although no write or delete
request is issued to the server. -/
theorem claim_C9_missing_capability_silent_success :
    (∀ (env : Env) (cfg : CaldavCalendarCfg) (uid : String) (d : EventUpdate)
      (st : Cache) (cal : Calendar) (st1 : Cache) (effs1 : List Eff)
      (evt : RemoteObject) (rest : List RemoteObject) (v : Component),
      _getCalendar env cfg st = ⟨.ok cal, st1, effs1⟩ →
      cal.readOnly = false →
      env.findEvents uid = evt :: rest →
      getFirstSubcomponent evt.comp "vevent" = some v →
      (applyEventFields d v).2 = true →
      evt.hasUpdate = false →
      _updateEvent env cfg uid d st =
        ⟨.ok (), st1, effs1 ++ [.netQuery "VEVENT" uid, .logInfo "Updated event" uid]⟩
      ∧ netWrites (_updateEvent env cfg uid d st).effs = [])
  ∧ (∀ (env : Env) (cfg : CaldavCalendarCfg) (uid : String) (d : TodoUpdate)
      (st : Cache) (cal : Calendar) (st1 : Cache) (effs1 : List Eff)
      (td : RemoteObject) (rest : List RemoteObject) (v : Component),
      _getCalendar env cfg st = ⟨.ok cal, st1, effs1⟩ →
      cal.readOnly = false →
      env.findTodos uid = td :: rest →
      getFirstSubcomponent td.comp "vtodo" = some v →
      (applyTodoFields (.time env.nowMs) d v).2 = true →
      td.hasUpdate = false →
      _updateTodo env cfg uid d st =
        ⟨.ok (), st1, effs1 ++ [.netQuery "VTODO" uid, .logInfo "Updated VTODO" uid]⟩
      ∧ netWrites (_updateTodo env cfg uid d st).effs = [])
  ∧ (∀ (env : Env) (cfg : CaldavCalendarCfg) (uid : String) (st : Cache)
      (cal : Calendar) (st1 : Cache) (effs1 : List Eff) (evt : RemoteObject)
      (rest : List RemoteObject),
      _getCalendar env cfg st = ⟨.ok cal, st1, effs1⟩ →
      env.findEvents uid = evt :: rest →
      evt.hasDelete = false →
      _deleteEvent env cfg uid st =
        ⟨.ok (), st1, effs1 ++ [.netQuery "VEVENT" uid, .logInfo "Deleted event" uid]⟩
      ∧ netWrites (_deleteEvent env cfg uid st).effs = [])
  ∧ (∀ (env : Env) (cfg : CaldavCalendarCfg) (uid : String) (st : Cache)
      (cal : Calendar) (st1 : Cache) (effs1 : List Eff) (td : RemoteObject)
      (rest : List RemoteObject),
      _getCalendar env cfg st = ⟨.ok cal, st1, effs1⟩ →
      env.findTodos uid = td :: rest →
      td.hasDelete = false →
      _deleteTodo env cfg uid st =
        ⟨.ok (), st1, effs1 ++ [.netQuery "VTODO" uid, .logInfo "Deleted VTODO" uid]⟩
      ∧ netWrites (_deleteTodo env cfg uid st).effs = []) := by
  have hne : ∀ (env : Env) (cfg : CaldavCalendarCfg) (st : Cache)
      (r : Except CaldavError Calendar) (st1 : Cache) (effs1 : List Eff),
      _getCalendar env cfg st = ⟨r, st1, effs1⟩ → netWrites effs1 = [] := by
    intro env cfg st r st1 effs1 h1
    have hg := getCalendar_netWrites env cfg st
    rw [h1] at hg
    simpa using hg
  refine ⟨?_, ?_, ?_, ?_⟩
  · intro env cfg uid d st cal st1 effs1 evt rest v h1 h2 h3 h4 h5 h6
    rcases hax : applyEventFields d v with ⟨v1, ch⟩
    rw [hax] at h5
    subst h5
    have heq : _updateEvent env cfg uid d st =
        ⟨.ok (), st1, effs1 ++ [.netQuery "VEVENT" uid,
          .logInfo "Updated event" uid]⟩ := by
      simp [_updateEvent, h1, h2, h3, h4, hax, h6]
    refine ⟨heq, ?_⟩
    rw [heq]
    simp only [Step.effs]
    rw [netWrites_append, hne env cfg st _ _ _ h1]
    rfl
  · intro env cfg uid d st cal st1 effs1 td rest v h1 h2 h3 h4 h5 h6
    rcases hax : applyTodoFields (.time env.nowMs) d v with ⟨v1, ch⟩
    rw [hax] at h5
    subst h5
    have heq : _updateTodo env cfg uid d st =
        ⟨.ok (), st1, effs1 ++ [.netQuery "VTODO" uid,
          .logInfo "Updated VTODO" uid]⟩ := by
      simp [_updateTodo, h1, h2, h3, h4, hax, h6]
    refine ⟨heq, ?_⟩
    rw [heq]
    simp only [Step.effs]
    rw [netWrites_append, hne env cfg st _ _ _ h1]
    rfl
  · intro env cfg uid st cal st1 effs1 evt rest h1 h3 h6
    have heq : _deleteEvent env cfg uid st =
        ⟨.ok (), st1, effs1 ++ [.netQuery "VEVENT" uid,
          .logInfo "Deleted event" uid]⟩ := by
      simp [_deleteEvent, h1, h3, h6]
    refine ⟨heq, ?_⟩
    rw [heq]
    simp only [Step.effs]
    rw [netWrites_append, hne env cfg st _ _ _ h1]
    rfl
  · intro env cfg uid st cal st1 effs1 td rest h1 h3 h6
    have heq : _deleteTodo env cfg uid st =
        ⟨.ok (), st1, effs1 ++ [.netQuery "VTODO" uid,
          .logInfo "Deleted VTODO" uid]⟩ := by
      simp [_deleteTodo, h1, h3, h6]
    refine ⟨heq, ?_⟩
    rw [heq]
    simp only [Step.effs]
    rw [netWrites_append, hne env cfg st _ _ _ h1]
    rfl

/-- Witness for C9: located objects without `update`/`delete` handles, for
all four verbs. -/
theorem claim_C9_witness :
    (_updateEvent exEnvNoCap exCfg "u1" exUpdSummary [] =
        ⟨.ok (), exSt1, [.netConnect, .netList] ++ [.netQuery "VEVENT" "u1",
          .logInfo "Updated event" "u1"]⟩
      ∧ netWrites (_updateEvent exEnvNoCap exCfg "u1" exUpdSummary []).effs = [])
  ∧ (_updateTodo exEnvNoCap exCfg "t1" exTodoUpdSummary [] =
        ⟨.ok (), exSt1, [.netConnect, .netList] ++ [.netQuery "VTODO" "t1",
          .logInfo "Updated VTODO" "t1"]⟩
      ∧ netWrites (_updateTodo exEnvNoCap exCfg "t1" exTodoUpdSummary []).effs = [])
  ∧ (_deleteEvent exEnvNoCap exCfg "u1" [] =
        ⟨.ok (), exSt1, [.netConnect, .netList] ++ [.netQuery "VEVENT" "u1",
          .logInfo "Deleted event" "u1"]⟩
      ∧ netWrites (_deleteEvent exEnvNoCap exCfg "u1" []).effs = [])
  ∧ (_deleteTodo exEnvNoCap exCfg "t1" [] =
        ⟨.ok (), exSt1, [.netConnect, .netList] ++ [.netQuery "VTODO" "t1",
          .logInfo "Deleted VTODO" "t1"]⟩
      ∧ netWrites (_deleteTodo exEnvNoCap exCfg "t1" []).effs = []) :=
  ⟨claim_C9_missing_capability_silent_success.1 exEnvNoCap exCfg "u1" exUpdSummary []
      exCal exSt1 [.netConnect, .netList] exObjENoCap [] exVevent
      (by decide) (by decide) (by decide) (by decide) (by decide) (by decide),
   claim_C9_missing_capability_silent_success.2.1 exEnvNoCap exCfg "t1"
      exTodoUpdSummary [] exCal exSt1 [.netConnect, .netList] exObjTNoCap [] exVtodo
      (by decide) (by decide) (by decide) (by decide) (by decide) (by decide),
   claim_C9_missing_capability_silent_success.2.2.1 exEnvNoCap exCfg "u1" []
      exCal exSt1 [.netConnect, .netList] exObjENoCap []
      (by decide) (by decide) (by decide),
   claim_C9_missing_capability_silent_success.2.2.2 exEnvNoCap exCfg "t1" []
      exCal exSt1 [.netConnect, .netList] exObjTNoCap []
      (by decide) (by decide) (by decide)⟩

/-- C10: when the event record has no description, the generated ICS line
list carries the empty string as the line between the SUMMARY line (index 8)
and the SEQUENCE line (index 10): the conditional DESCRIPTION interpolation
contributes an empty string while the template's surrounding line breaks
remain. -/
theorem claim_C10_absent_description_blank_line :
    ∀ (env : Env) (cfg : CaldavCalendarCfg) (dat : CalendarEventData) (st : Cache)
      (cal : Calendar) (st1 : Cache) (effs1 : List Eff),
      _getCalendar env cfg st = ⟨.ok cal, st1, effs1⟩ →
      cal.readOnly = false →
      env.createOk = true →
      dat.description = none →
      ∃ lines,
        _createEvent env cfg dat st =
          ⟨.ok (if dat.uid ≠ "" then dat.uid else "sp-" ++ env.uuid), st1,
            effs1 ++ [.netCreate lines, .logInfo "Created event"
              (if dat.uid ≠ "" then dat.uid else "sp-" ++ env.uuid)]⟩
        ∧ lines[8]? = some ("SUMMARY:" ++ _escapeIcalText dat.summary)
        ∧ lines[9]? = some ""
        ∧ lines[10]? = some "SEQUENCE:0" := by
  intro env cfg dat st cal st1 effs1 h1 h2 h3 hd
  refine ⟨eventIcalLines (if dat.uid ≠ "" then dat.uid else "sp-" ++ env.uuid)
      (env.fmt env.nowMs) (env.fmt dat.start) (env.fmt dat.endTs) dat.summary
      dat.description, ?_, ?_, ?_, ?_⟩
  · simp [_createEvent, h1, h2, h3]
  · simp [eventIcalLines]
  · simp [eventIcalLines, hd, jsTruthyStrOpt]
  · simp [eventIcalLines]

/-- Witness for C10: the concrete create-event run with no description. -/
theorem claim_C10_witness :
    ∃ lines,
      _createEvent exEnv exCfg exEventData [] =
        ⟨.ok "sp-task-42", exSt1, [.netConnect, .netList] ++ [.netCreate lines,
          .logInfo "Created event" "sp-task-42"]⟩
      ∧ lines[8]? = some "SUMMARY:Write report"
      ∧ lines[9]? = some ""
      ∧ lines[10]? = some "SEQUENCE:0" :=
  claim_C10_absent_description_blank_line exEnv exCfg exEventData []
    exCal exSt1 [.netConnect, .netList] (by decide) (by decide) (by decide) (by decide)
